import Mathlib

/-!
Verification of the catalog mutation engine of mostarle-kr.

This file shallowly embeds the server actions of the repository
(`src/app/features/products/api/create.tsx`, `update.tsx`, `delete.tsx`,
the toggle-sold-out action, and `src/app/features/banners/api/*`) as pure
Lean functions over an explicit relational-store state, an event trace for
the asset store, and an environment (oracle) that prescribes the outcome
of each fallible store call.  Strings are embedded as lists of Unicode
code points; binary files are embedded by the metadata the code inspects
(name, size, MIME kind).
-/

namespace Mostarle

/-- A string, embedded as its list of Unicode code points. -/
abbrev Str := List Nat

/-- Metadata of an uploaded `File` as the actions inspect it:
`name`, `size` (bytes), and whether `type` starts with `image/`
(the code only ever tests `type.startsWith("image/")`, so the MIME
type is embedded as that Boolean). -/
structure FileData where
  name : Nat
  size : Nat
  mime_image : Bool
deriving DecidableEq

/-- A storage path inside the `products` or `banners` bucket, embedded
structurally: `products/{productId}/{ts}-{name}`,
`products/{productId}/details/{i}/{ts}-{name}` and `banners/{ts}-...-{name}`. -/
inductive StoragePath
  | productImage (productId ts name : Nat)
  | productDetail (productId idx ts name : Nat)
  | bannerMobile (ts name : Nat)
  | bannerDesktop (ts name : Nat)
deriving DecidableEq

/-- A public URL as the model tracks it: `some p` when the URL resolves
(via `extractFilePathFromUrl`) to the storage path `p` of the bucket,
`none` for a URL the regex does not match. -/
abbrev UrlT := Option StoragePath

/-- `extractFilePathFromUrl` of the source: recovers the bucket path from a
public URL.  Under the structural embedding of URLs this is the identity. -/
def extractFilePathFromUrl (u : UrlT) : Option StoragePath := u

/-- `getPublicUrl` of the storage client: yields the URL resolving to `p`. -/
def publicUrl (p : StoragePath) : UrlT := some p

/-- One observable store call issued by an action. -/
inductive Ev
  | storageUpload (p : StoragePath)
  | storageRemove (ps : List StoragePath)
  | storageList (productId : Nat)
  | slugSelect (slug : Str)
  | productInsert (productId : Nat)
  | productDelete (productId : Nat)
  | productScalarUpdate (productId : Nat)
  | imgRowsDeleteByIds (ids : List Nat)
  | imgRowsDeleteAll (productId : Nat)
  | imgOrderUpdate (imageId : Nat) (ord : Nat)
  | imgRowInsert (productId : Nat) (ord : Nat)
  | imgRowsInsertBatch (productId : Nat) (n : Nat)
  | detRowsDeleteAll (productId : Nat)
  | detRowsInsertBatch (productId : Nat) (n : Nat)
  | bannerRowUpdate (bannerId : Nat)
  | bannerRowDelete (bannerId : Nat)
  | soldOutUpdate (productId : Nat)
deriving DecidableEq

/-- Which fallible store call failed; the source surfaces each as a 400
response carrying the store message. -/
inductive StoreErr
  | productInsertFail
  | imgUploadFail
  | imgInsertFail
  | imgDeleteFail
  | imgDeleteAllFail
  | imgOrderUpdateFail
  | detUploadFail
  | detInsertFail
  | detDeleteFail
  | bannerUploadMobileFail
  | bannerUploadDesktopFail
  | bannerUpdateFail
  | bannerDeleteFail
deriving DecidableEq

/-- Outcome of an action, mirroring the responses of the source. -/
inductive ActRes
  | fieldErrors                    -- 400, zod validation failure
  | notFound                       -- 404
  | forbidden                      -- 403
  | slugConflict                   -- 400, slug already in use
  | fileTooLarge (name : Nat)      -- 400, file exceeds 5 MiB
  | badFileType (name : Nat)       -- 400, not an image MIME type
  | storeErr (e : StoreErr)        -- 400, a store call failed
  | serverError                    -- 500
  | ok (id : Nat) (slug : Str)     -- success payload { id, slug }
  | soldOutOk (sold_out : Bool)    -- success payload { sold_out }
  | redirectOk                     -- success redirect
deriving DecidableEq

/-- Row of `products` (`catalog_item`). -/
structure ProductRow where
  product_id : Nat
  title : Str
  price : Int
  difficulty : Option Int
  working_time : Int
  width : Option Int
  height : Option Int
  depth : Option Int
  slug : Str
  sold_out : Bool
  created_by : Nat
deriving DecidableEq

/-- Row of `product_images` (`catalog_item_image`). -/
structure ImageRow where
  image_id : Nat
  product_id : Nat
  image_url : UrlT
  image_order : Nat
deriving DecidableEq

/-- Row of `product_details` (`catalog_item_detail`). -/
structure DetailRow where
  detail_id : Nat
  product_id : Nat
  detail_title : Str
  detail_description : Str
  detail_image_url : Option UrlT
  detail_order : Nat
deriving DecidableEq

/-- Row of `banners`. -/
structure BannerRow where
  banner_id : Nat
  title : Str
  image_url_mobile : UrlT
  image_url_desktop : UrlT
  link_url : Option Str
  display_order : Int
  is_active : Bool
  created_by : Nat
deriving DecidableEq

/-- The relational store: the three product tables plus banners, and the
next identity value each table will assign. -/
structure DB where
  products : List ProductRow
  productImages : List ImageRow
  productDetails : List DetailRow
  banners : List BannerRow
  nextProductId : Nat
  nextImageId : Nat
  nextDetailId : Nat
deriving DecidableEq

/-- Store well-formedness: identity columns are duplicate-free and below
the next identity value the store will assign (so inserted rows get fresh
ids), and identities are positive (the store assigns positive ids; the
create action explicitly rejects a falsy id). -/
def DB.wfb (db : DB) : Bool :=
  decide (db.products.map (·.product_id)).Nodup &&
  decide (db.productImages.map (·.image_id)).Nodup &&
  decide (db.productDetails.map (·.detail_id)).Nodup &&
  db.products.all (fun p => p.product_id < db.nextProductId) &&
  db.productImages.all (fun r => r.image_id < db.nextImageId) &&
  db.productDetails.all (fun d => d.detail_id < db.nextDetailId) &&
  db.productImages.all (fun r => db.products.any (fun p => p.product_id == r.product_id)) &&
  db.productDetails.all (fun d => db.products.any (fun p => p.product_id == d.product_id)) &&
  decide (0 < db.nextProductId)

/-! ### Slug generation (`generateSlug` of create.tsx / update.tsx) -/

/-- `String.prototype.toLowerCase` restricted to the ASCII range: maps
A-Z to a-z and leaves every other code point unchanged.  (The full
Unicode case table is not embedded; no code point with a non-trivial
non-ASCII lowercase mapping occurs in the strings this development
evaluates.) -/
def jsToLower (c : Nat) : Nat :=
  if 65 ≤ c ∧ c ≤ 90 then c + 32 else c

/-- Canonical decomposition (`normalize("NFD")`) of one code point.
Hangul syllables (U+AC00..U+D7A3) decompose algorithmically into Jamo;
other code points are left unchanged.  (Precomposed Latin letters would
need the Unicode decomposition table; none occur in the strings this
development evaluates.) -/
def nfdChar (c : Nat) : List Nat :=
  if 0xAC00 ≤ c ∧ c ≤ 0xD7A3 then
    let s := c - 0xAC00
    let l := 0x1100 + s / 588
    let v := 0x1161 + (s % 588) / 28
    let t := s % 28
    if t = 0 then [l, v] else [l, v, 0x11A7 + t]
  else [c]

/-- `normalize("NFD")` over a whole string. -/
def nfd (s : Str) : Str := s.flatMap nfdChar

/-- Combining diacritical mark, the range `[̀-ͯ]` removed by
`generateSlug`. -/
def isCombining (c : Nat) : Bool := 0x300 ≤ c && c ≤ 0x36F

/-- Lower-case ASCII letter or digit, the class `[a-z0-9]` of
`generateSlug`. -/
def isLowerAlnum (c : Nat) : Bool :=
  (97 ≤ c && c ≤ 122) || (48 ≤ c && c ≤ 57)

/-- The hyphen code point. -/
def hyphen : Nat := 45

/-- `replace(/[^a-z0-9]+/g, "-")`: every maximal run of characters
outside `[a-z0-9]` becomes a single hyphen.  `prev` records whether the
previous character was part of such a run. -/
def collapseNonAlnum : Bool → Str → Str
  | _, [] => []
  | prev, c :: rest =>
    if isLowerAlnum c then c :: collapseNonAlnum false rest
    else if prev then collapseNonAlnum true rest
    else hyphen :: collapseNonAlnum true rest

/-- `replace(/^-+|-+$/g, "")`: strip leading and trailing hyphens. -/
def trimHyphens (s : Str) : Str :=
  ((s.dropWhile (· = hyphen)).reverse.dropWhile (· = hyphen)).reverse

/-- `generateSlug` of create.tsx and update.tsx: lower-case, NFD
normalize, strip combining diacritics, collapse runs of non-alphanumerics
to single hyphens, trim boundary hyphens. -/
def generateSlug (title : Str) : Str :=
  trimHyphens
    (collapseNonAlnum false
      ((nfd (title.map jsToLower)).filter (fun c => !isCombining c)))

/-- `validData.slug || generateSlug(validData.title)`: the supplied slug
when present and non-empty (JS truthiness of a string), the generated one
otherwise. -/
def chosenSlug (slugField : Option Str) (title : Str) : Str :=
  match slugField with
  | some s => if s.isEmpty then generateSlug title else s
  | none => generateSlug title

/-! ### Requests and validation (the zod schemas, at the level of the
parsed `validData` values: numbers already coerced, missing optional
fields `none`) -/

/-- One entry of `details` in a create request. -/
structure DetailInput where
  title : Str
  description : Str
  image : Option FileData
deriving DecidableEq

/-- One entry of `details` in an update request; may carry the id of the
existing detail whose image it replaces. -/
structure DetailInputU where
  title : Str
  description : Str
  image : Option FileData
  detail_id : Option Nat
deriving DecidableEq

/-- A create-product request (`productSchema` shape). -/
structure CreateReq where
  title : Str
  price : Int
  difficulty : Option Int
  working_time : Int
  width : Option Int
  height : Option Int
  depth : Option Int
  slug : Option Str
  details : List DetailInput
  images : List FileData
deriving DecidableEq

/-- An update-product request (`productUpdateSchema` shape). -/
structure UpdateReq where
  product_id : Nat
  title : Str
  price : Int
  difficulty : Option Int
  working_time : Int
  width : Option Int
  height : Option Int
  depth : Option Int
  slug : Option Str
  details : List DetailInputU
  images : List FileData
  existing_image_ids : List Nat
  existing_detail_ids : List Nat
deriving DecidableEq

/-- `productSchema` validation: title non-empty, price positive,
difficulty in 1..5 when present, working time positive, detail titles and
descriptions non-empty, at least one image. -/
def createValid (r : CreateReq) : Bool :=
  !r.title.isEmpty &&
  decide (0 < r.price) &&
  (match r.difficulty with
   | none => true
   | some d => decide (1 ≤ d ∧ d ≤ 5)) &&
  decide (0 < r.working_time) &&
  r.details.all (fun d => !d.title.isEmpty && !d.description.isEmpty) &&
  !r.images.isEmpty

/-- `productUpdateSchema` validation: as for create, plus a positive
product id, but with `images` optional (no minimum). -/
def updateValid (r : UpdateReq) : Bool :=
  decide (0 < r.product_id) &&
  !r.title.isEmpty &&
  decide (0 < r.price) &&
  (match r.difficulty with
   | none => true
   | some d => decide (1 ≤ d ∧ d ≤ 5)) &&
  decide (0 < r.working_time) &&
  r.details.all (fun d => !d.title.isEmpty && !d.description.isEmpty)

/-- 5 MiB, the per-file size limit. -/
def maxFileSize : Nat := 5 * 1024 * 1024

/-- The per-file checks run on `validData.images` before any store call:
size, then MIME type, file by file.  Returns the first error response. -/
def imagesFileCheck : List FileData → Option ActRes
  | [] => none
  | f :: rest =>
    if f.size > maxFileSize then some (.fileTooLarge f.name)
    else if !f.mime_image then some (.badFileType f.name)
    else imagesFileCheck rest

/-- The same checks on the optional images of the detail entries. -/
def detailImagesFileCheck : List (Option FileData) → Option ActRes
  | [] => none
  | none :: rest => detailImagesFileCheck rest
  | some f :: rest =>
    if f.size > maxFileSize then some (.fileTooLarge f.name)
    else if !f.mime_image then some (.badFileType f.name)
    else detailImagesFileCheck rest

/-! ### Action state -/

/-- State threaded through an action: the relational store, the trace of
store calls issued so far, and `uploadedFiles`, the paths uploaded by
this invocation (the compensation list). -/
structure St where
  db : DB
  trace : List Ev
  uploadedFiles : List StoragePath
deriving DecidableEq

/-- Outcome of an action: response plus final state. -/
structure ActOut where
  res : ActRes
  st : St
deriving DecidableEq

/-- `if (uploadedFiles.length > 0) await storage.remove(uploadedFiles)`:
the compensation call run on the failure paths. -/
def cleanupUploads (st : St) : St :=
  if st.uploadedFiles.isEmpty then st
  else { st with trace := st.trace ++ [Ev.storageRemove st.uploadedFiles] }

/-! ### Create product (`create.tsx` action) -/

/-- Outcome oracle for the fallible store calls of the create action. -/
structure CreateEnv where
  ts : Nat
  productInsertOk : Bool
  imgUploadOk : Nat → Bool
  imgInsertOk : Bool
  detUploadOk : Nat → Bool
  detInsertOk : Bool

/-- The product-image upload loop of create: uploads file `i` to
`products/{productId}/{ts}-{name}`, collects `(publicUrl, order := i)`;
on an upload failure removes the files uploaded so far and stops.  Rows
are inserted afterwards in one batch. -/
def createImageLoop (env : CreateEnv) (productId : Nat) (i : Nat)
    (files : List FileData) (acc : List (UrlT × Nat)) (st : St) :
    St × List (UrlT × Nat) × Option StoreErr :=
  match files with
  | [] => (st, acc, none)
  | f :: rest =>
    if env.imgUploadOk i then
      let path := StoragePath.productImage productId env.ts f.name
      let st1 : St :=
        { st with trace := st.trace ++ [Ev.storageUpload path],
                  uploadedFiles := st.uploadedFiles ++ [path] }
      createImageLoop env productId (i + 1) rest
        (acc ++ [(publicUrl path, i)]) st1
    else (cleanupUploads st, acc, some .imgUploadFail)

/-- The detail loop of create: for each detail entry, optionally uploads
its image to `products/{productId}/details/{i}/{ts}-{name}` and builds the
row to insert (order := i). -/
def createDetailLoop (env : CreateEnv) (productId : Nat) (i : Nat)
    (dets : List DetailInput) (acc : List DetailRow) (st : St) :
    St × List DetailRow × Option StoreErr :=
  match dets with
  | [] => (st, acc, none)
  | d :: rest =>
    match d.image with
    | some f =>
      if env.detUploadOk i then
        let path := StoragePath.productDetail productId i env.ts f.name
        let st1 : St :=
          { st with trace := st.trace ++ [Ev.storageUpload path],
                    uploadedFiles := st.uploadedFiles ++ [path] }
        let row : DetailRow :=
          { detail_id := 0, product_id := productId, detail_title := d.title,
            detail_description := d.description,
            detail_image_url := some (publicUrl path), detail_order := i }
        createDetailLoop env productId (i + 1) rest (acc ++ [row]) st1
      else (cleanupUploads st, acc, some .detUploadFail)
    | none =>
      let row : DetailRow :=
        { detail_id := 0, product_id := productId, detail_title := d.title,
          detail_description := d.description,
          detail_image_url := none, detail_order := i }
      createDetailLoop env productId (i + 1) rest (acc ++ [row]) st

/-- Deleting the just-inserted parent row (the create compensation). -/
def deleteProductRow (db : DB) (pid : Nat) : DB :=
  { db with products := db.products.filter (fun p => p.product_id ≠ pid) }

/-- The parent row the create action inserts: the validated scalars, the
computed slug, sold-out false, the caller as owner, the next identity as
id. -/
def createParentRow (uid : Nat) (req : CreateReq) (db : DB) : ProductRow :=
  { product_id := db.nextProductId, title := req.title, price := req.price,
    difficulty := req.difficulty, working_time := req.working_time,
    width := req.width, height := req.height, depth := req.depth,
    slug := chosenSlug req.slug req.title, sold_out := false,
    created_by := uid }

/-- The create-product action (`create.tsx`), from the validated form
data onward: validate, derive the slug, check slug uniqueness, check the
files, insert the parent row, upload and insert images, upload and insert
details; compensate exactly as the source does on each failure path. -/
def createAction (env : CreateEnv) (uid : Nat) (req : CreateReq) (db : DB) :
    ActOut :=
  let st0 : St := ⟨db, [], []⟩
  if ¬ createValid req then ⟨.fieldErrors, st0⟩ else
  let slug := chosenSlug req.slug req.title
  let st1 : St := { st0 with trace := st0.trace ++ [Ev.slugSelect slug] }
  if (db.products.find? (fun p => p.slug == slug)).isSome then
    ⟨.slugConflict, st1⟩
  else
    match imagesFileCheck req.images with
    | some e => ⟨e, st1⟩
    | none =>
    match detailImagesFileCheck (req.details.map (·.image)) with
    | some e => ⟨e, st1⟩
    | none =>
    if ¬ env.productInsertOk then ⟨.storeErr .productInsertFail, st1⟩ else
    let productId := db.nextProductId
    let parentRow := createParentRow uid req db
    let st2 : St :=
      { st1 with
        db := { st1.db with products := st1.db.products ++ [parentRow],
                            nextProductId := st1.db.nextProductId + 1 },
        trace := st1.trace ++ [Ev.productInsert productId] }
    if productId = 0 then ⟨.serverError, st2⟩ else
    match createImageLoop env productId 0 req.images [] st2 with
    | (st3, _, some e) => ⟨.storeErr e, st3⟩
    | (st3, imageUrls, none) =>
    let afterImages : St × Option StoreErr :=
      if imageUrls.isEmpty then (st3, none)
      else if env.imgInsertOk then
        let recs := imageUrls.enum.map (fun (k, u) =>
          ({ image_id := st3.db.nextImageId + k, product_id := productId,
             image_url := u.1, image_order := u.2 } : ImageRow))
        ({ st3 with
           db := { st3.db with
                   productImages := st3.db.productImages ++ recs,
                   nextImageId := st3.db.nextImageId + recs.length },
           trace := st3.trace ++ [Ev.imgRowsInsertBatch productId recs.length] },
         none)
      else
        let st3c := cleanupUploads st3
        ({ st3c with
           db := deleteProductRow st3c.db productId,
           trace := st3c.trace ++ [Ev.productDelete productId] },
         some .imgInsertFail)
    match afterImages with
    | (st4, some e) => ⟨.storeErr e, st4⟩
    | (st4, none) =>
    if req.details.isEmpty then ⟨.ok productId slug, st4⟩ else
    match createDetailLoop env productId 0 req.details [] st4 with
    | (st5, _, some e) => ⟨.storeErr e, st5⟩
    | (st5, detailRecs, none) =>
    if env.detInsertOk then
      let recs := detailRecs.enum.map (fun (k, r) =>
        { r with detail_id := st5.db.nextDetailId + k })
      ⟨.ok productId slug,
       { st5 with
         db := { st5.db with
                 productDetails := st5.db.productDetails ++ recs,
                 nextDetailId := st5.db.nextDetailId + recs.length },
         trace := st5.trace ++ [Ev.detRowsInsertBatch productId recs.length] }⟩
    else
      let st5c := cleanupUploads st5
      ⟨.storeErr .detInsertFail,
       { st5c with
         db := deleteProductRow st5c.db productId,
         trace := st5c.trace ++ [Ev.productDelete productId] }⟩

/-! ### Update product (`update.tsx` action) -/

/-- Outcome oracle for the fallible store calls of the update action;
the per-call flags are indexed by loop position. -/
structure UpdEnv where
  ts : Nat
  imgDeleteByIdsOk : Bool
  imgDeleteAllOk : Bool
  imgOrderUpdateOk : Nat → Bool
  imgUploadOk : Nat → Bool
  imgInsertOk : Nat → Bool
  detDeleteAllOk : Bool
  detUploadOk : Nat → Bool
  detInsertOk : Bool

/-- Stable insertion into a list sorted by `key` (equal keys keep the
earlier element first, as the stable JS `Array.prototype.sort`). -/
def insertSorted (key : α → Nat) (x : α) : List α → List α
  | [] => [x]
  | y :: ys => if key y < key x then y :: insertSorted key x ys else x :: y :: ys

/-- Stable sort by a numeric key, modelling
`list.sort((a, b) => a.key - b.key)`. -/
def sortByKey (key : α → Nat) : List α → List α
  | [] => []
  | x :: xs => insertSorted key x (sortByKey key xs)

/-- The images of a product as the update action loads them: filtered by
product id and sorted by `image_order`. -/
def existingImagesOf (db : DB) (pid : Nat) : List ImageRow :=
  sortByKey (·.image_order) (db.productImages.filter (fun r => r.product_id == pid))

/-- The details of a product as the update action loads them. -/
def existingDetailsOf (db : DB) (pid : Nat) : List DetailRow :=
  sortByKey (·.detail_order) (db.productDetails.filter (fun d => d.product_id == pid))

/-- `existingImagesToKeep`: the kept-id list mapped to the matching
loaded rows, unmatched ids silently dropped
(`ids.map(find).filter(defined)`). -/
def existingImagesToKeep (existingImages : List ImageRow) (ids : List Nat) :
    List ImageRow :=
  (ids.map (fun id => existingImages.find? (fun img => img.image_id == id))).reduceOption

/-- The best-effort storage removals for image rows about to be deleted
(log-and-continue; they never fail an action). -/
def imageStorageRemoves (imgs : List ImageRow) : List Ev :=
  imgs.filterMap (fun img =>
    (extractFilePathFromUrl img.image_url).map (fun p => Ev.storageRemove [p]))

/-- The best-effort removal of one optionally-resolved storage object
(`if (path) remove([path])`). -/
def optRemoveEv : Option StoragePath → List Ev
  | some p => [Ev.storageRemove [p]]
  | none => []

/-- The best-effort storage removals for detail rows about to be
deleted. -/
def detailStorageRemoves (dets : List DetailRow) : List Ev :=
  dets.filterMap (fun d =>
    (d.detail_image_url.bind extractFilePathFromUrl).map
      (fun p => Ev.storageRemove [p]))

/-- Delete the image rows with the given ids
(`delete().in("image_id", ids)`). -/
def deleteImageRows (db : DB) (ids : List Nat) : DB :=
  { db with productImages :=
      db.productImages.filter (fun r => !ids.contains r.image_id) }

/-- Delete every image row of the product
(`delete().eq("product_id", pid)`). -/
def deleteAllImageRows (db : DB) (pid : Nat) : DB :=
  { db with productImages :=
      db.productImages.filter (fun r => r.product_id ≠ pid) }

/-- Delete every detail row of the product. -/
def deleteAllDetailRows (db : DB) (pid : Nat) : DB :=
  { db with productDetails :=
      db.productDetails.filter (fun d => d.product_id ≠ pid) }

/-- `update({ image_order := ord }).eq("image_id", iid)`. -/
def setImageOrder (db : DB) (iid : Nat) (ord : Nat) : DB :=
  { db with productImages := db.productImages.map (fun r =>
      if r.image_id = iid then { r with image_order := ord } else r) }

/-- The image-deletion block of update: best-effort storage removals for
the rows not kept, then either a delete by explicit id list (when some
row is dropped) or — when nothing is dropped, no id is kept and new files
arrive — a delete of the whole collection. -/
def imageDeletePhase (env : UpdEnv) (pid : Nat) (keptIds : List Nat)
    (newFiles : List FileData) (existingImages : List ImageRow) (st : St) :
    St × Option StoreErr :=
  let imagesToDelete := existingImages.filter (fun img => !keptIds.contains img.image_id)
  let st1 : St := { st with trace := st.trace ++ imageStorageRemoves imagesToDelete }
  if imagesToDelete.length > 0 then
    if env.imgDeleteByIdsOk then
      let ids := imagesToDelete.map (·.image_id)
      ({ st1 with db := deleteImageRows st1.db ids,
                  trace := st1.trace ++ [Ev.imgRowsDeleteByIds ids] }, none)
    else (st1, some .imgDeleteFail)
  else
    if keptIds.length = 0 ∧ newFiles.length > 0 then
      if env.imgDeleteAllOk then
        ({ st1 with db := deleteAllImageRows st1.db pid,
                    trace := st1.trace ++ [Ev.imgRowsDeleteAll pid] }, none)
      else (st1, some .imgDeleteAllFail)
    else (st1, none)

/-- The reorder loop of update: the i-th kept row gets `image_order := i`
by a direct field update; a failing update stops the action there. -/
def imageOrderLoop (env : UpdEnv) (i : Nat) (toKeep : List ImageRow) (st : St) :
    St × Option StoreErr :=
  match toKeep with
  | [] => (st, none)
  | img :: rest =>
    if env.imgOrderUpdateOk i then
      let st1 : St :=
        { st with db := setImageOrder st.db img.image_id i,
                  trace := st.trace ++ [Ev.imgOrderUpdate img.image_id i] }
      imageOrderLoop env (i + 1) rest st1
    else (st, some .imgOrderUpdateFail)

/-- The new-image loop of update: upload file `j`, insert its row with
`image_order := startOrder + j`; on a failure remove the files uploaded
by this invocation and stop. -/
def imageUploadLoop (env : UpdEnv) (pid : Nat) (startOrder : Nat) (j : Nat)
    (files : List FileData) (st : St) : St × Option StoreErr :=
  match files with
  | [] => (st, none)
  | f :: rest =>
    if env.imgUploadOk j then
      let path := StoragePath.productImage pid env.ts f.name
      let st1 : St :=
        { st with trace := st.trace ++ [Ev.storageUpload path],
                  uploadedFiles := st.uploadedFiles ++ [path] }
      if env.imgInsertOk j then
        let row : ImageRow :=
          { image_id := st1.db.nextImageId, product_id := pid,
            image_url := publicUrl path, image_order := startOrder + j }
        let st2 : St :=
          { st1 with
            db := { st1.db with productImages := st1.db.productImages ++ [row],
                                nextImageId := st1.db.nextImageId + 1 },
            trace := st1.trace ++ [Ev.imgRowInsert pid (startOrder + j)] }
        imageUploadLoop env pid startOrder (j + 1) rest st2
      else (cleanupUploads st1, some .imgInsertFail)
    else (cleanupUploads st, some .imgUploadFail)

/-- The detail-record loop of update: for entry `i`, look up the existing
detail named by its `detail_id`; with a new image, best-effort remove the
replaced storage object, upload the new one; otherwise inherit the
existing image URL; the record gets `detail_order := i`. -/
def updateDetailLoop (env : UpdEnv) (pid : Nat)
    (existingDetails : List DetailRow) (i : Nat) (dets : List DetailInputU)
    (acc : List DetailRow) (st : St) : St × List DetailRow × Option StoreErr :=
  match dets with
  | [] => (st, acc, none)
  | d :: rest =>
    let existingDetail : Option DetailRow :=
      match d.detail_id with
      | some did => existingDetails.find? (fun e => e.detail_id == did)
      | none => none
    match d.image with
    | some f =>
      let removeEvs : List Ev :=
        optRemoveEv (existingDetail.bind (·.detail_image_url.bind extractFilePathFromUrl))
      let st1 : St := { st with trace := st.trace ++ removeEvs }
      if env.detUploadOk i then
        let path := StoragePath.productDetail pid i env.ts f.name
        let st2 : St :=
          { st1 with trace := st1.trace ++ [Ev.storageUpload path],
                     uploadedFiles := st1.uploadedFiles ++ [path] }
        let row : DetailRow :=
          { detail_id := 0, product_id := pid, detail_title := d.title,
            detail_description := d.description,
            detail_image_url := some (publicUrl path), detail_order := i }
        updateDetailLoop env pid existingDetails (i + 1) rest (acc ++ [row]) st2
      else (cleanupUploads st1, acc, some .detUploadFail)
    | none =>
      let row : DetailRow :=
        { detail_id := 0, product_id := pid, detail_title := d.title,
          detail_description := d.description,
          detail_image_url := existingDetail.bind (·.detail_image_url),
          detail_order := i }
      updateDetailLoop env pid existingDetails (i + 1) rest (acc ++ [row]) st

/-- The final parent-row write of update: set the scalar fields of the
product (id, sold-out flag and owner untouched). -/
def updateProductScalars (db : DB) (req : UpdateReq) (slug : Str) : DB :=
  { db with products := db.products.map (fun p =>
      if p.product_id = req.product_id then
        { p with title := req.title, price := req.price,
                 difficulty := req.difficulty, working_time := req.working_time,
                 width := req.width, height := req.height, depth := req.depth,
                 slug := slug }
      else p) }

/-- The image reconciliation of update, composed as in the source:
deletion block, reorder loop over the kept rows, upload-and-insert loop
for the new files. -/
def imagePhase (env : UpdEnv) (pid : Nat) (keptIds : List Nat)
    (newFiles : List FileData) (existingImages : List ImageRow) (st : St) :
    St × Option StoreErr :=
  match imageDeletePhase env pid keptIds newFiles existingImages st with
  | (st1, some e) => (st1, some e)
  | (st1, none) =>
    let toKeep := existingImagesToKeep existingImages keptIds
    match imageOrderLoop env 0 toKeep st1 with
    | (st2, some e) => (st2, some e)
    | (st2, none) => imageUploadLoop env pid toKeep.length 0 newFiles st2

/-- The re-insert part of the detail reconciliation: when detail entries
were submitted, build the records (uploading replacement images) and
insert them in one batch; ids are freshly assigned. -/
def detailInsertBlock (env : UpdEnv) (pid : Nat)
    (existingDetails : List DetailRow) (dets : List DetailInputU) (st2 : St) :
    St × Option StoreErr :=
  if dets.length > 0 then
    match updateDetailLoop env pid existingDetails 0 dets [] st2 with
    | (st3, _, some e) => (st3, some e)
    | (st3, detailRecs, none) =>
      if env.detInsertOk then
        let recs := detailRecs.enum.map (fun (k, r) =>
          { r with detail_id := st3.db.nextDetailId + k })
        ({ st3 with
           db := { st3.db with
                   productDetails := st3.db.productDetails ++ recs,
                   nextDetailId := st3.db.nextDetailId + recs.length },
           trace := st3.trace ++ [Ev.detRowsInsertBatch pid recs.length] },
         none)
      else (cleanupUploads st3, some .detInsertFail)
  else (st2, none)

/-- The detail reconciliation of update: best-effort storage removals for
the dropped details, then — whenever a detail is dropped or any detail
entries are submitted — a delete of the whole collection followed by the
batch re-insert. -/
def detailPhase (env : UpdEnv) (pid : Nat) (keptDetailIds : List Nat)
    (dets : List DetailInputU) (st : St) : St × Option StoreErr :=
  let existingDetails := existingDetailsOf st.db pid
  let detailsToDelete :=
    existingDetails.filter (fun d => !keptDetailIds.contains d.detail_id)
  let st1 : St := { st with trace := st.trace ++ detailStorageRemoves detailsToDelete }
  if detailsToDelete.length > 0 ∨ dets.length > 0 then
    if env.detDeleteAllOk then
      detailInsertBlock env pid existingDetails dets
        { st1 with db := deleteAllDetailRows st1.db pid,
                   trace := st1.trace ++ [Ev.detRowsDeleteAll pid] }
    else (cleanupUploads st1, some .detDeleteFail)
  else (st1, none)

/-- The conditional slug-uniqueness check of update: it runs only when
the computed slug differs from the one stored on the target row, and it
flags a conflict when another product already holds the slug. -/
def slugUniquenessCheck (db : DB) (pid : Nat) (slug oldSlug : Str) (st : St) :
    St × Bool :=
  if slug ≠ oldSlug then
    let stc : St := { st with trace := st.trace ++ [Ev.slugSelect slug] }
    match db.products.find? (fun p => p.slug == slug) with
    | some c => (stc, c.product_id ≠ pid)
    | none => (stc, false)
  else (st, false)

/-- The update-product action (`update.tsx`), from the validated form
data onward: validate, load the row (404), check ownership (403), check
slug uniqueness only when the slug changed, check the files, reconcile
images then details, and only then write the parent scalar fields. -/
def updateAction (env : UpdEnv) (uid : Nat) (req : UpdateReq) (db : DB) :
    ActOut :=
  let st0 : St := ⟨db, [], []⟩
  if ¬ updateValid req then ⟨.fieldErrors, st0⟩ else
  match db.products.find? (fun p => p.product_id == req.product_id) with
  | none => ⟨.notFound, st0⟩
  | some existingProduct =>
    if existingProduct.created_by ≠ uid then ⟨.forbidden, st0⟩ else
    let slug := chosenSlug req.slug req.title
    let slugCheck : St × Bool :=
      slugUniquenessCheck db req.product_id slug existingProduct.slug st0
    if slugCheck.2 then ⟨.slugConflict, slugCheck.1⟩ else
    let st1 := slugCheck.1
    match imagesFileCheck req.images with
    | some e => ⟨e, st1⟩
    | none =>
    match detailImagesFileCheck (req.details.map (·.image)) with
    | some e => ⟨e, st1⟩
    | none =>
    let existingImages := existingImagesOf db req.product_id
    match imagePhase env req.product_id req.existing_image_ids req.images
        existingImages st1 with
    | (st2, some e) => ⟨.storeErr e, st2⟩
    | (st2, none) =>
    match detailPhase env req.product_id req.existing_detail_ids req.details st2 with
    | (st3, some e) => ⟨.storeErr e, st3⟩
    | (st3, none) =>
      ⟨.ok req.product_id slug,
       { st3 with db := updateProductScalars st3.db req slug,
                  trace := st3.trace ++ [Ev.productScalarUpdate req.product_id] }⟩

/-! ### Delete product (`delete.tsx` action) -/

/-- Environment of the delete action: the storage listing under the
product folder (an external read; deletions are best-effort). -/
structure DelEnv where
  listedPaths : List StoragePath

/-- The delete-product action: validate the id, load the row (404),
check ownership (403), best-effort remove the listed storage objects and
the folder path itself, then delete the parent row — the relational
cascade removes its image and detail rows. -/
def deleteProductAction (env : DelEnv) (uid : Nat) (product_id : Nat) (db : DB) :
    ActOut :=
  let st0 : St := ⟨db, [], []⟩
  if ¬ decide (0 < product_id) then ⟨.fieldErrors, st0⟩ else
  match db.products.find? (fun p => p.product_id == product_id) with
  | none => ⟨.notFound, st0⟩
  | some existingProduct =>
    if existingProduct.created_by ≠ uid then ⟨.forbidden, st0⟩ else
    let st1 : St := { st0 with trace := st0.trace ++ [Ev.storageList product_id] }
    let st2 : St :=
      if env.listedPaths.isEmpty then st1
      else { st1 with trace := st1.trace ++ [Ev.storageRemove env.listedPaths] }
    -- second attempt: remove the folder path itself (modelled by the
    -- product-image path with zero timestamp and name, as a plain path)
    let st3 : St :=
      { st2 with trace := st2.trace ++
          [Ev.storageRemove [StoragePath.productImage product_id 0 0]] }
    ⟨.redirectOk,
     { st3 with
       db := { st3.db with
               products := st3.db.products.filter (fun p => p.product_id ≠ product_id),
               productImages := st3.db.productImages.filter (fun r => r.product_id ≠ product_id),
               productDetails := st3.db.productDetails.filter (fun d => d.product_id ≠ product_id) },
       trace := st3.trace ++ [Ev.productDelete product_id] }⟩

/-! ### Toggle sold-out (toggle-sold-out action) -/

/-- The toggle-sold-out action: validate the id, load the row (404),
check ownership (403), flip the flag in one update. -/
def toggleSoldOutAction (uid : Nat) (product_id : Nat) (db : DB) : ActOut :=
  let st0 : St := ⟨db, [], []⟩
  if ¬ decide (0 < product_id) then ⟨.fieldErrors, st0⟩ else
  match db.products.find? (fun p => p.product_id == product_id) with
  | none => ⟨.notFound, st0⟩
  | some existingProduct =>
    if existingProduct.created_by ≠ uid then ⟨.forbidden, st0⟩ else
    ⟨.soldOutOk (!existingProduct.sold_out),
     { st0 with
       db := { st0.db with products := st0.db.products.map (fun p =>
           if p.product_id = product_id then { p with sold_out := !p.sold_out } else p) },
       trace := st0.trace ++ [Ev.soldOutUpdate product_id] }⟩

/-! ### Banner update and delete (`banners/api/update.tsx`, delete
action).  Both run after `requireAdminEmail`; they locate the row via
`getBanner` (404 when missing) and perform no ownership comparison of
their own — any row-level restriction is the relational policy of the
store, surfacing as a failed store call, not as a 403. -/

/-- A banner-update request at the level of the parsed `validData`
(`is_active` is the post-transform Boolean: `val === "on" || val === "true"`). -/
structure BannerUpdateReq where
  banner_id : Nat
  link_url : Option Str
  display_order : Option Int
  is_active : Bool
  image_mobile : Option FileData
  image_desktop : Option FileData
deriving DecidableEq

/-- Outcome oracle for the fallible store calls of the banner actions. -/
structure BannerEnv where
  ts : Nat
  uploadMobileOk : Bool
  uploadDesktopOk : Bool
  rowUpdateOk : Bool
  rowDeleteOk : Bool

/-- `link_url || null` of the row update: an empty string becomes null. -/
def linkOrNull (l : Option Str) : Option Str :=
  match l with
  | some s => if s.isEmpty then none else some s
  | none => none

/-- The banner-update action: load the row (404, no ownership check);
for each slot with a new file, check size and type, best-effort remove
the old object, upload the new one; then write the row in one update
(every new request value applied; `is_active` is always the transformed
Boolean). -/
def bannerUpdateAction (env : BannerEnv) (_uid : Nat) (req : BannerUpdateReq)
    (db : DB) : ActOut :=
  let st0 : St := ⟨db, [], []⟩
  if ¬ decide (0 < req.banner_id) then ⟨.fieldErrors, st0⟩ else
  match db.banners.find? (fun b => b.banner_id == req.banner_id) with
  | none => ⟨.notFound, st0⟩
  | some existingBanner =>
    let afterMobile : St × UrlT × Option ActRes :=
      match req.image_mobile with
      | none => (st0, existingBanner.image_url_mobile, none)
      | some f =>
        if f.size > maxFileSize then (st0, existingBanner.image_url_mobile, some (.fileTooLarge f.name))
        else if !f.mime_image then (st0, existingBanner.image_url_mobile, some (.badFileType f.name))
        else
          let removeEvs : List Ev :=
            optRemoveEv (extractFilePathFromUrl existingBanner.image_url_mobile)
          let st1 : St := { st0 with trace := st0.trace ++ removeEvs }
          if env.uploadMobileOk then
            let path := StoragePath.bannerMobile env.ts f.name
            ({ st1 with trace := st1.trace ++ [Ev.storageUpload path],
                        uploadedFiles := st1.uploadedFiles ++ [path] },
             publicUrl path, none)
          else (st1, existingBanner.image_url_mobile,
                some (.storeErr .bannerUploadMobileFail))
    match afterMobile with
    | (st1, _, some e) => ⟨e, st1⟩
    | (st1, newMobileUrl, none) =>
    let afterDesktop : St × UrlT × Option ActRes :=
      match req.image_desktop with
      | none => (st1, existingBanner.image_url_desktop, none)
      | some f =>
        if f.size > maxFileSize then (st1, existingBanner.image_url_desktop, some (.fileTooLarge f.name))
        else if !f.mime_image then (st1, existingBanner.image_url_desktop, some (.badFileType f.name))
        else
          let removeEvs : List Ev :=
            optRemoveEv (extractFilePathFromUrl existingBanner.image_url_desktop)
          let st2 : St := { st1 with trace := st1.trace ++ removeEvs }
          if env.uploadDesktopOk then
            let path := StoragePath.bannerDesktop env.ts f.name
            ({ st2 with trace := st2.trace ++ [Ev.storageUpload path],
                        uploadedFiles := st2.uploadedFiles ++ [path] },
             publicUrl path, none)
          else (st2, existingBanner.image_url_desktop,
                some (.storeErr .bannerUploadDesktopFail))
    match afterDesktop with
    | (st2, _, some e) => ⟨e, st2⟩
    | (st2, newDesktopUrl, none) =>
      if env.rowUpdateOk then
        ⟨.redirectOk,
         { st2 with
           db := { st2.db with banners := st2.db.banners.map (fun b =>
               if b.banner_id = req.banner_id then
                 { b with image_url_mobile := newMobileUrl,
                          image_url_desktop := newDesktopUrl,
                          link_url := linkOrNull req.link_url,
                          display_order := req.display_order.getD existingBanner.display_order,
                          is_active := req.is_active }
               else b) },
           trace := st2.trace ++ [Ev.bannerRowUpdate req.banner_id] }⟩
      else ⟨.storeErr .bannerUpdateFail,
            cleanupUploads st2⟩

/-- The banner-delete action: load the row (404, no ownership check),
best-effort remove both storage objects, delete the row. -/
def bannerDeleteAction (env : BannerEnv) (_uid : Nat) (banner_id : Nat)
    (db : DB) : ActOut :=
  let st0 : St := ⟨db, [], []⟩
  if ¬ decide (0 < banner_id) then ⟨.fieldErrors, st0⟩ else
  match db.banners.find? (fun b => b.banner_id == banner_id) with
  | none => ⟨.notFound, st0⟩
  | some existingBanner =>
    let mobileEvs : List Ev :=
      optRemoveEv (extractFilePathFromUrl existingBanner.image_url_mobile)
    let desktopEvs : List Ev :=
      optRemoveEv (extractFilePathFromUrl existingBanner.image_url_desktop)
    let st1 : St := { st0 with trace := st0.trace ++ mobileEvs ++ desktopEvs }
    if env.rowDeleteOk then
      ⟨.redirectOk,
       { st1 with
         db := { st1.db with banners := st1.db.banners.filter (fun b => b.banner_id ≠ banner_id) },
         trace := st1.trace ++ [Ev.bannerRowDelete banner_id] }⟩
    else ⟨.storeErr .bannerDeleteFail, st1⟩

/-! ### Concrete fixtures for witnesses and counterexamples -/

/-- All store calls succeed (create). -/
def allOkCreateEnv : CreateEnv :=
  ⟨0, true, fun _ => true, true, fun _ => true, true⟩

/-- All store calls succeed (update). -/
def allOkUpdEnv : UpdEnv :=
  ⟨0, true, true, fun _ => true, fun _ => true, fun _ => true, true,
   fun _ => true, true⟩

/-- All store calls succeed (banners). -/
def okBannerEnv : BannerEnv := ⟨0, true, true, true, true⟩

/-- Every image upload fails (create). -/
def uploadFailCreateEnv : CreateEnv :=
  ⟨0, true, fun _ => false, true, fun _ => true, true⟩

/-- The batch image-row insert fails (create). -/
def imgInsertFailCreateEnv : CreateEnv :=
  ⟨0, true, fun _ => true, false, fun _ => true, true⟩

/-- The detail-row insert fails (create). -/
def detInsertFailCreateEnv : CreateEnv :=
  ⟨0, true, fun _ => true, true, fun _ => true, false⟩

/-- Every detail upload fails (create). -/
def detUploadFailCreateEnv : CreateEnv :=
  ⟨0, true, fun _ => true, true, fun _ => false, true⟩

/-- All update store calls succeed except the image-row delete. -/
def imgDeleteFailUpdEnv : UpdEnv :=
  ⟨0, false, true, fun _ => true, fun _ => true, fun _ => true, true,
   fun _ => true, true⟩

/-- A small valid image file. -/
def imgFile : FileData := ⟨1, 100, true⟩

/-- An empty store. -/
def emptyDB : DB := ⟨[], [], [], [], 1, 1, 1⟩

/-- Product 1, owned by principal 7, slug "t". -/
def productOne : ProductRow :=
  ⟨1, [116], 1, none, 1, none, none, none, [116], false, 7⟩

/-- Image row 10 of product 1, at order 0. -/
def imageTen : ImageRow := ⟨10, 1, some (StoragePath.productImage 1 0 1), 0⟩

/-- Detail row 20 of product 1, at order 0. -/
def detailTwenty : DetailRow := ⟨20, 1, [97], [98], none, 0⟩

/-- A store holding product 1 with its single image row 10. -/
def dbOneImage : DB := ⟨[productOne], [imageTen], [], [], 2, 11, 1⟩

/-- A store holding product 1 with its single detail row 20. -/
def dbOneDetail : DB := ⟨[productOne], [], [detailTwenty], [], 2, 1, 21⟩

/-- An update request for product 1 by owner 7 that changes nothing:
same title and slug, no files, no kept ids. -/
def baseUpdateReq : UpdateReq :=
  ⟨1, [116], 1, none, 1, none, none, none, some [116], [], [], [], []⟩

/-- The title "나무 상자" as code points. -/
def koreanTitle : Str := [0xB098, 0xBB34, 0x20, 0xC0C1, 0xC790]

/-- The create request of the example scenario: title "나무 상자",
price 10000, working time 60, one image file, no supplied slug. -/
def koreanCreateReq : CreateReq :=
  ⟨koreanTitle, 10000, none, 60, none, none, none, none, [], [imgFile]⟩

/-- A plain valid create request, title "a". -/
def simpleCreateReq : CreateReq :=
  ⟨[97], 1, none, 1, none, none, none, none, [], [imgFile]⟩

/-- Banner 5, owned by principal 2. -/
def bannerFive : BannerRow :=
  ⟨5, [], some (StoragePath.bannerMobile 0 1), some (StoragePath.bannerDesktop 0 2),
   none, 0, true, 2⟩

/-- A store holding banner 5. -/
def dbOneBanner : DB := ⟨[], [], [], [bannerFive], 1, 1, 1⟩

/-- A banner-update request for banner 5 with no new files that turns
the active flag off. -/
def bannerReqFive : BannerUpdateReq := ⟨5, none, none, false, none, none⟩

/-- Whether a response is the success payload of create/update. -/
def ActRes.isOk : ActRes → Bool
  | .ok _ _ => true
  | _ => false

/-! ## Frame lemmas: which tables each phase can touch -/

theorem cleanupUploads_db (st : St) : (cleanupUploads st).db = st.db := by
  unfold cleanupUploads; split <;> rfl

theorem imageDeletePhase_products (env : UpdEnv) (pid : Nat) (keptIds : List Nat)
    (newFiles : List FileData) (exImgs : List ImageRow) (st : St) :
    ((imageDeletePhase env pid keptIds newFiles exImgs st).1).db.products
      = st.db.products := by
  unfold imageDeletePhase
  dsimp only
  repeat' split
  all_goals simp [deleteImageRows, deleteAllImageRows]

theorem imageOrderLoop_products (env : UpdEnv) :
    ∀ (toKeep : List ImageRow) (i : Nat) (st : St),
    ((imageOrderLoop env i toKeep st).1).db.products = st.db.products := by
  intro toKeep
  induction toKeep with
  | nil => intro i st; rfl
  | cons img rest ih =>
    intro i st
    unfold imageOrderLoop
    split
    · rw [ih]; simp [setImageOrder]
    · rfl

theorem imageUploadLoop_products (env : UpdEnv) (pid startOrder : Nat) :
    ∀ (files : List FileData) (j : Nat) (st : St),
    ((imageUploadLoop env pid startOrder j files st).1).db.products
      = st.db.products := by
  intro files
  induction files with
  | nil => intro j st; rfl
  | cons f rest ih =>
    intro j st
    unfold imageUploadLoop
    split
    · split
      · rw [ih]
      · rw [cleanupUploads_db]
    · rw [cleanupUploads_db]

theorem imagePhase_products (env : UpdEnv) (pid : Nat) (keptIds : List Nat)
    (newFiles : List FileData) (exImgs : List ImageRow) (st : St) :
    ((imagePhase env pid keptIds newFiles exImgs st).1).db.products
      = st.db.products := by
  unfold imagePhase
  split
  · next heq =>
    have := imageDeletePhase_products env pid keptIds newFiles exImgs st
    rw [heq] at this; exact this
  · next st1 heq =>
    have h1 := imageDeletePhase_products env pid keptIds newFiles exImgs st
    rw [heq] at h1
    dsimp only
    split
    · next heq2 =>
      have h2 := imageOrderLoop_products env
        (existingImagesToKeep exImgs keptIds) 0 st1
      rw [heq2] at h2
      exact h2.trans h1
    · next st2 heq2 =>
      have h2 := imageOrderLoop_products env
        (existingImagesToKeep exImgs keptIds) 0 st1
      rw [heq2] at h2
      rw [imageUploadLoop_products]
      exact h2.trans h1

theorem updateDetailLoop_products (env : UpdEnv) (pid : Nat)
    (exDets : List DetailRow) :
    ∀ (dets : List DetailInputU) (i : Nat) (acc : List DetailRow) (st : St),
    ((updateDetailLoop env pid exDets i dets acc st).1).db.products
      = st.db.products := by
  intro dets
  induction dets with
  | nil => intro i acc st; rfl
  | cons d rest ih =>
    intro i acc st
    unfold updateDetailLoop
    dsimp only
    repeat' split
    all_goals simp [ih, cleanupUploads_db]

theorem detailInsertBlock_products (env : UpdEnv) (pid : Nat)
    (exDets : List DetailRow) (dets : List DetailInputU) (st2 : St) :
    ((detailInsertBlock env pid exDets dets st2).1).db.products
      = st2.db.products := by
  unfold detailInsertBlock
  split
  · split
    · next st3 e heq =>
      have h := updateDetailLoop_products env pid exDets dets 0 [] st2
      rw [heq] at h
      exact h
    · next st3 recs heq =>
      have h := updateDetailLoop_products env pid exDets dets 0 [] st2
      rw [heq] at h
      split
      · simpa using h
      · rw [cleanupUploads_db]; simpa using h
  · rfl

theorem detailPhase_products (env : UpdEnv) (pid : Nat) (keptIds : List Nat)
    (dets : List DetailInputU) (st : St) :
    ((detailPhase env pid keptIds dets st).1).db.products = st.db.products := by
  unfold detailPhase
  dsimp only
  split
  · split
    · rw [detailInsertBlock_products]
      simp [deleteAllDetailRows]
    · rw [cleanupUploads_db]
  · rfl

theorem slugUniquenessCheck_db (db : DB) (pid : Nat) (slug oldSlug : Str)
    (st : St) : ((slugUniquenessCheck db pid slug oldSlug st).1).db = st.db := by
  unfold slugUniquenessCheck
  dsimp only
  repeat' split
  all_goals rfl

theorem imagesFileCheck_not_ok :
    ∀ (files : List FileData) (e : ActRes),
    imagesFileCheck files = some e → e.isOk = false := by
  intro files
  induction files with
  | nil => intro e h; simp [imagesFileCheck] at h
  | cons f rest ih =>
    intro e h
    unfold imagesFileCheck at h
    split at h
    · cases h; rfl
    · split at h
      · cases h; rfl
      · exact ih e h

theorem detailImagesFileCheck_not_ok :
    ∀ (files : List (Option FileData)) (e : ActRes),
    detailImagesFileCheck files = some e → e.isOk = false := by
  intro files
  induction files with
  | nil => intro e h; simp [detailImagesFileCheck] at h
  | cons f rest ih =>
    intro e h
    cases f with
    | none => exact ih e h
    | some g =>
      unfold detailImagesFileCheck at h
      split at h
      · cases h; rfl
      · split at h
        · cases h; rfl
        · exact ih e h

/-- The products table after an update: unchanged unless the action
succeeded, in which case only the scalar fields of the target row were
rewritten. -/
theorem updateAction_products (env : UpdEnv) (uid : Nat) (req : UpdateReq)
    (db : DB) :
    (updateAction env uid req db).st.db.products
      = (if (updateAction env uid req db).res.isOk then
           (updateProductScalars db req (chosenSlug req.slug req.title)).products
         else db.products) := by
  unfold updateAction
  dsimp only
  split
  · rfl
  · split
    · rfl
    · next existingProduct heq =>
      split
      · rfl
      · split
        · next h2 =>
          simp only [ActRes.isOk, if_neg]
          have := slugUniquenessCheck_db db req.product_id
            (chosenSlug req.slug req.title) existingProduct.slug ⟨db, [], []⟩
          simp [this]
        · next h2 =>
          split
          · next e heqf =>
            have he := imagesFileCheck_not_ok req.images e heqf
            rw [slugUniquenessCheck_db, he]
            simp
          · split
            · next e heqf =>
              have he := detailImagesFileCheck_not_ok (req.details.map (·.image)) e heqf
              rw [slugUniquenessCheck_db, he]
              simp
            · have hs : (slugUniquenessCheck db req.product_id
                  (chosenSlug req.slug req.title) existingProduct.slug
                  ⟨db, [], []⟩).1.db.products = db.products := by
                rw [slugUniquenessCheck_db]
              rcases heqp : imagePhase env req.product_id
                  req.existing_image_ids req.images
                  (existingImagesOf db req.product_id)
                  (slugUniquenessCheck db req.product_id
                    (chosenSlug req.slug req.title) existingProduct.slug
                    ⟨db, [], []⟩).1 with ⟨st2, e2⟩
              have hp := imagePhase_products env req.product_id
                req.existing_image_ids req.images
                (existingImagesOf db req.product_id)
                (slugUniquenessCheck db req.product_id
                  (chosenSlug req.slug req.title) existingProduct.slug
                  ⟨db, [], []⟩).1
              rw [heqp] at hp
              have hp2 : st2.db.products = db.products := hp.trans hs
              cases e2 with
              | some e =>
                simp only [ActRes.isOk]
                simp only [Bool.false_eq_true, if_false]
                exact hp2
              | none =>
                dsimp only
                rcases heqd : detailPhase env req.product_id
                    req.existing_detail_ids req.details st2 with ⟨st3, e3⟩
                have hd := detailPhase_products env req.product_id
                  req.existing_detail_ids req.details st2
                rw [heqd] at hd
                have hd2 : st3.db.products = db.products := hd.trans hp2
                cases e3 with
                | some e =>
                  simp only [ActRes.isOk]
                  simp only [Bool.false_eq_true, if_false]
                  exact hd2
                | none =>
                  simp only [ActRes.isOk, if_pos]
                  show (updateProductScalars st3.db req
                    (chosenSlug req.slug req.title)).products = _
                  unfold updateProductScalars
                  dsimp only
                  rw [hd2]

theorem createImageLoop_db (env : CreateEnv) (productId : Nat) :
    ∀ (files : List FileData) (i : Nat) (acc : List (UrlT × Nat)) (st : St),
    ((createImageLoop env productId i files acc st).1).db = st.db := by
  intro files
  induction files with
  | nil => intro i acc st; rfl
  | cons f rest ih =>
    intro i acc st
    unfold createImageLoop
    dsimp only
    split
    · rw [ih]
    · rw [cleanupUploads_db]

theorem createDetailLoop_db (env : CreateEnv) (productId : Nat) :
    ∀ (dets : List DetailInput) (i : Nat) (acc : List DetailRow) (st : St),
    ((createDetailLoop env productId i dets acc st).1).db = st.db := by
  intro dets
  induction dets with
  | nil => intro i acc st; rfl
  | cons d rest ih =>
    intro i acc st
    unfold createDetailLoop
    dsimp only
    repeat' split
    all_goals simp [ih, cleanupUploads_db]

/-- The outcome of create: either a non-success response, or the success
payload `{ id := nextProductId, slug }` with the products table being
exactly the old table plus the new parent row (image and detail inserts
touch their own tables only). -/
theorem createAction_products (env : CreateEnv) (uid : Nat)
    (req : CreateReq) (db : DB) :
    (createAction env uid req db).res.isOk = false ∨
    ((createAction env uid req db).res
        = .ok db.nextProductId (chosenSlug req.slug req.title) ∧
     (createAction env uid req db).st.db.products
        = db.products ++ [createParentRow uid req db]) := by
  unfold createAction
  dsimp only
  split
  · exact Or.inl rfl
  split
  · exact Or.inl rfl
  split
  · next e heqf => exact Or.inl (imagesFileCheck_not_ok _ _ heqf)
  split
  · next e heqf => exact Or.inl (detailImagesFileCheck_not_ok _ _ heqf)
  split
  · exact Or.inl rfl
  split
  · exact Or.inl rfl
  split
  · exact Or.inl rfl
  next st3 urls heqL =>
  have hL3 : st3.db.products = db.products ++ [createParentRow uid req db] := by
    have h := congrArg (fun x => x.1.db) heqL
    dsimp only at h
    rw [createImageLoop_db] at h
    exact congrArg DB.products h.symm
  split
  · exact Or.inl rfl
  next st4 heqA =>
  have hA : st4.db.products = st3.db.products := by
    split at heqA
    · cases heqA; rfl
    · split at heqA
      · cases heqA; rfl
      · cases heqA
  split
  · exact Or.inr ⟨rfl, hA.trans hL3⟩
  split
  · exact Or.inl rfl
  next st5 recs heqD =>
  have hD : st5.db.products = st4.db.products := by
    have h := congrArg (fun x => x.1.db) heqD
    dsimp only at h
    rw [createDetailLoop_db] at h
    exact congrArg DB.products h.symm
  split
  · exact Or.inr ⟨rfl, (hD.trans hA).trans hL3⟩
  · exact Or.inl rfl

/-- Whether a response is one of the two per-file validation errors. -/
def ActRes.isFileErr : ActRes → Bool
  | .fileTooLarge _ => true
  | .badFileType _ => true
  | _ => false

theorem imagesFileCheck_isFileErr :
    ∀ (files : List FileData) (e : ActRes),
    imagesFileCheck files = some e → e.isFileErr = true := by
  intro files
  induction files with
  | nil => intro e h; simp [imagesFileCheck] at h
  | cons f rest ih =>
    intro e h
    unfold imagesFileCheck at h
    split at h
    · cases h; rfl
    · split at h
      · cases h; rfl
      · exact ih e h

theorem detailImagesFileCheck_isFileErr :
    ∀ (files : List (Option FileData)) (e : ActRes),
    detailImagesFileCheck files = some e → e.isFileErr = true := by
  intro files
  induction files with
  | nil => intro e h; simp [detailImagesFileCheck] at h
  | cons f rest ih =>
    intro e h
    cases f with
    | none => exact ih e h
    | some g =>
      unfold detailImagesFileCheck at h
      split at h
      · cases h; rfl
      · split at h
        · cases h; rfl
        · exact ih e h

/-- When the computed slug equals the one on the row, no uniqueness
lookup runs at all: the check is skipped and nothing is traced. -/
theorem slugUniquenessCheck_self (db : DB) (pid : Nat) (s : Str) (st : St) :
    slugUniquenessCheck db pid s s st = (st, false) := by
  unfold slugUniquenessCheck
  rw [if_neg]
  simp

/-- Whether a trace is free of slug-uniqueness lookups. -/
def noSlugSelect (evs : List Ev) : Bool :=
  evs.all (fun e => match e with | Ev.slugSelect _ => false | _ => true)

theorem noSlugSelect_append (a b : List Ev) :
    noSlugSelect (a ++ b) = (noSlugSelect a && noSlugSelect b) := by
  simp [noSlugSelect]

theorem noSlugSelect_extend (a b : List Ev) (ha : noSlugSelect a = true)
    (hb : noSlugSelect b = true) : noSlugSelect (a ++ b) = true := by
  rw [noSlugSelect_append, ha, hb]; rfl

theorem noSlugSelect_optRemoveEv (o : Option StoragePath) :
    noSlugSelect (optRemoveEv o) = true := by
  cases o <;> rfl

theorem noSlugSelect_imageStorageRemoves (imgs : List ImageRow) :
    noSlugSelect (imageStorageRemoves imgs) = true := by
  induction imgs with
  | nil => rfl
  | cons i rest ih =>
    unfold imageStorageRemoves at ih ⊢
    simp only [List.filterMap_cons]
    cases hu : extractFilePathFromUrl i.image_url with
    | none => simpa [hu] using ih
    | some p => simpa [hu, noSlugSelect] using ih

theorem noSlugSelect_detailStorageRemoves (dets : List DetailRow) :
    noSlugSelect (detailStorageRemoves dets) = true := by
  induction dets with
  | nil => rfl
  | cons d rest ih =>
    unfold detailStorageRemoves at ih ⊢
    simp only [List.filterMap_cons]
    cases hu : d.detail_image_url.bind extractFilePathFromUrl with
    | none => simpa [hu] using ih
    | some p => simpa [hu, noSlugSelect] using ih

theorem noSlugSelect_cleanupUploads (st : St) :
    noSlugSelect st.trace = true → noSlugSelect (cleanupUploads st).trace = true := by
  intro h
  unfold cleanupUploads
  split
  · exact h
  · exact noSlugSelect_extend _ _ h rfl

theorem noSlugSelect_imageDeletePhase (env : UpdEnv) (pid : Nat)
    (keptIds : List Nat) (newFiles : List FileData) (exImgs : List ImageRow)
    (st : St) (h : noSlugSelect st.trace = true) :
    noSlugSelect ((imageDeletePhase env pid keptIds newFiles exImgs st).1).trace
      = true := by
  have h1 : noSlugSelect (st.trace ++ imageStorageRemoves
      (exImgs.filter (fun img => !keptIds.contains img.image_id))) = true :=
    noSlugSelect_extend _ _ h (noSlugSelect_imageStorageRemoves _)
  unfold imageDeletePhase
  dsimp only
  repeat' split
  all_goals first
    | exact h1
    | exact noSlugSelect_extend _ _ h1 rfl

theorem noSlugSelect_imageOrderLoop (env : UpdEnv) :
    ∀ (toKeep : List ImageRow) (i : Nat) (st : St),
    noSlugSelect st.trace = true →
    noSlugSelect ((imageOrderLoop env i toKeep st).1).trace = true := by
  intro toKeep
  induction toKeep with
  | nil => intro i st h; exact h
  | cons img rest ih =>
    intro i st h
    unfold imageOrderLoop
    dsimp only
    split
    · exact ih _ _ (noSlugSelect_extend _ _ h rfl)
    · exact h

theorem noSlugSelect_imageUploadLoop (env : UpdEnv) (pid startOrder : Nat) :
    ∀ (files : List FileData) (j : Nat) (st : St),
    noSlugSelect st.trace = true →
    noSlugSelect ((imageUploadLoop env pid startOrder j files st).1).trace = true := by
  intro files
  induction files with
  | nil => intro j st h; exact h
  | cons f rest ih =>
    intro j st h
    unfold imageUploadLoop
    dsimp only
    split
    · split
      · exact ih _ _ (noSlugSelect_extend _ _ (noSlugSelect_extend _ _ h rfl) rfl)
      · exact noSlugSelect_cleanupUploads _ (noSlugSelect_extend _ _ h rfl)
    · exact noSlugSelect_cleanupUploads _ h

theorem noSlugSelect_imagePhase (env : UpdEnv) (pid : Nat) (keptIds : List Nat)
    (newFiles : List FileData) (exImgs : List ImageRow) (st : St)
    (h : noSlugSelect st.trace = true) :
    noSlugSelect ((imagePhase env pid keptIds newFiles exImgs st).1).trace = true := by
  unfold imagePhase
  split
  · next heq =>
    have := noSlugSelect_imageDeletePhase env pid keptIds newFiles exImgs st h
    rw [heq] at this
    exact this
  · next st1 heq =>
    have h1 := noSlugSelect_imageDeletePhase env pid keptIds newFiles exImgs st h
    rw [heq] at h1
    dsimp only
    split
    · next heq2 =>
      have h2 := noSlugSelect_imageOrderLoop env
        (existingImagesToKeep exImgs keptIds) 0 st1 h1
      rw [heq2] at h2
      exact h2
    · next st2 heq2 =>
      have h2 := noSlugSelect_imageOrderLoop env
        (existingImagesToKeep exImgs keptIds) 0 st1 h1
      rw [heq2] at h2
      exact noSlugSelect_imageUploadLoop env pid _ newFiles 0 st2 h2

theorem noSlugSelect_updateDetailLoop (env : UpdEnv) (pid : Nat)
    (exDets : List DetailRow) :
    ∀ (dets : List DetailInputU) (i : Nat) (acc : List DetailRow) (st : St),
    noSlugSelect st.trace = true →
    noSlugSelect ((updateDetailLoop env pid exDets i dets acc st).1).trace = true := by
  intro dets
  induction dets with
  | nil => intro i acc st h; exact h
  | cons d rest ih =>
    intro i acc st h
    unfold updateDetailLoop
    dsimp only
    split
    · split
      · exact ih _ _ _ (noSlugSelect_extend _ _
          (noSlugSelect_extend _ _ h (noSlugSelect_optRemoveEv _)) rfl)
      · exact noSlugSelect_cleanupUploads _
          (noSlugSelect_extend _ _ h (noSlugSelect_optRemoveEv _))
    · exact ih _ _ _ h

theorem noSlugSelect_detailInsertBlock (env : UpdEnv) (pid : Nat)
    (exDets : List DetailRow) (dets : List DetailInputU) (st2 : St)
    (h : noSlugSelect st2.trace = true) :
    noSlugSelect ((detailInsertBlock env pid exDets dets st2).1).trace = true := by
  unfold detailInsertBlock
  split
  · split
    · next st3 e heq =>
      have hl := noSlugSelect_updateDetailLoop env pid exDets dets 0 [] st2 h
      rw [heq] at hl
      exact hl
    · next st3 recs heq =>
      have hl := noSlugSelect_updateDetailLoop env pid exDets dets 0 [] st2 h
      rw [heq] at hl
      split
      · simpa [noSlugSelect_append, noSlugSelect] using hl
      · exact noSlugSelect_cleanupUploads _ hl
  · exact h

theorem noSlugSelect_detailPhase (env : UpdEnv) (pid : Nat)
    (keptIds : List Nat) (dets : List DetailInputU) (st : St)
    (h : noSlugSelect st.trace = true) :
    noSlugSelect ((detailPhase env pid keptIds dets st).1).trace = true := by
  have h1 : noSlugSelect (st.trace ++ detailStorageRemoves
      ((existingDetailsOf st.db pid).filter
        (fun d => !keptIds.contains d.detail_id))) = true :=
    noSlugSelect_extend _ _ h (noSlugSelect_detailStorageRemoves _)
  unfold detailPhase
  dsimp only
  split
  · split
    · exact noSlugSelect_detailInsertBlock _ _ _ _ _
        (noSlugSelect_extend _ _ h1 rfl)
    · exact noSlugSelect_cleanupUploads _ h1
  · exact h1

/-- If a product already holds the computed slug, a valid create request
stops at the uniqueness check with the conflict error. -/
theorem createAction_slugConflict (env : CreateEnv) (uid : Nat)
    (req : CreateReq) (db : DB) (hval : createValid req = true)
    (p : ProductRow) (hp : p ∈ db.products)
    (hs : p.slug = chosenSlug req.slug req.title) :
    (createAction env uid req db).res = .slugConflict := by
  unfold createAction
  dsimp only
  rw [if_neg (by simp [hval])]
  rw [if_pos]
  · rw [List.find?_isSome]
    exact ⟨p, hp, by simp [hs]⟩

theorem createImageLoop_err (env : CreateEnv) (productId : Nat) :
    ∀ (files : List FileData) (i : Nat) (acc : List (UrlT × Nat)) (st st3 : St)
      (urls : List (UrlT × Nat)) (e : StoreErr),
    createImageLoop env productId i files acc st = (st3, urls, some e) →
    e = .imgUploadFail := by
  intro files
  induction files with
  | nil => intro i acc st st3 urls e h; cases h
  | cons f rest ih =>
    intro i acc st st3 urls e h
    unfold createImageLoop at h
    dsimp only at h
    split at h
    · exact ih _ _ _ _ _ _ h
    · cases h; rfl

theorem createDetailLoop_err (env : CreateEnv) (productId : Nat) :
    ∀ (dets : List DetailInput) (i : Nat) (acc : List DetailRow) (st st3 : St)
      (recs : List DetailRow) (e : StoreErr),
    createDetailLoop env productId i dets acc st = (st3, recs, some e) →
    e = .detUploadFail := by
  intro dets
  induction dets with
  | nil => intro i acc st st3 recs e h; cases h
  | cons d rest ih =>
    intro i acc st st3 recs e h
    unfold createDetailLoop at h
    dsimp only at h
    split at h
    · split at h
      · exact ih _ _ _ _ _ _ h
      · cases h; rfl
    · exact ih _ _ _ _ _ _ h

theorem createValid_images (req : CreateReq) (h : createValid req = true) :
    0 < req.images.length := by
  unfold createValid at h
  simp only [Bool.and_eq_true] at h
  have := h.2
  simp only [Bool.not_eq_true'] at this
  cases hi : req.images with
  | nil => rw [hi] at this; cases this
  | cons a l => simp

theorem createImageLoop_ok (env : CreateEnv) (productId : Nat) :
    ∀ (files : List FileData) (i : Nat) (acc : List (UrlT × Nat)) (st st3 : St)
      (urls : List (UrlT × Nat)),
    createImageLoop env productId i files acc st = (st3, urls, none) →
    urls.map (·.2) = acc.map (·.2) ++ List.range' i files.length := by
  intro files
  induction files with
  | nil =>
    intro i acc st st3 urls h
    unfold createImageLoop at h
    cases h
    simp
  | cons f rest ih =>
    intro i acc st st3 urls h
    unfold createImageLoop at h
    dsimp only at h
    split at h
    · have := ih _ _ _ _ _ h
      rw [this]
      simp [List.range'_succ]
    · simp at h

theorem createDetailLoop_ok (env : CreateEnv) (productId : Nat) :
    ∀ (dets : List DetailInput) (i : Nat) (acc : List DetailRow) (st st3 : St)
      (recs : List DetailRow),
    createDetailLoop env productId i dets acc st = (st3, recs, none) →
    (∀ r ∈ acc, r.product_id = productId) →
    recs.map (·.detail_order) = acc.map (·.detail_order) ++ List.range' i dets.length ∧
    ∀ r ∈ recs, r.product_id = productId := by
  intro dets
  induction dets with
  | nil =>
    intro i acc st st3 recs h hacc
    unfold createDetailLoop at h
    cases h
    exact ⟨by simp, hacc⟩
  | cons d rest ih =>
    intro i acc st st3 recs h hacc
    unfold createDetailLoop at h
    dsimp only at h
    split at h
    · split at h
      · have := ih _ _ _ _ _ h (by
          intro r hr
          rw [List.mem_append] at hr
          rcases hr with hr | hr
          · exact hacc r hr
          · simp at hr; rw [hr])
        refine ⟨?_, this.2⟩
        rw [this.1]
        simp [List.range'_succ]
      · simp at h
    · have := ih _ _ _ _ _ h (by
        intro r hr
        rw [List.mem_append] at hr
        rcases hr with hr | hr
        · exact hacc r hr
        · simp at hr; rw [hr])
      refine ⟨?_, this.2⟩
      rw [this.1]
      simp [List.range'_succ]

/-- The child tables after create: unless the action failed, each table
is the old one with the freshly built records appended; the records carry
the new product id and orders 0..n-1 in caller order. -/
theorem createAction_children (env : CreateEnv) (uid : Nat)
    (req : CreateReq) (db : DB) :
    (createAction env uid req db).res.isOk = false ∨
    ∃ imgRecs detRecs,
      (createAction env uid req db).st.db.productImages
          = db.productImages ++ imgRecs ∧
      imgRecs.map (·.image_order) = List.range req.images.length ∧
      (∀ r ∈ imgRecs, r.product_id = db.nextProductId) ∧
      (createAction env uid req db).st.db.productDetails
          = db.productDetails ++ detRecs ∧
      detRecs.map (·.detail_order) = List.range req.details.length ∧
      (∀ r ∈ detRecs, r.product_id = db.nextProductId) := by
  unfold createAction
  dsimp only
  split
  · exact Or.inl rfl
  next hvaln =>
  have hval : createValid req = true := by
    rw [Bool.not_eq_true, Bool.not_eq_false] at hvaln
    exact hvaln
  split
  · exact Or.inl rfl
  split
  · next e heqf => exact Or.inl (imagesFileCheck_not_ok _ _ heqf)
  split
  · next e heqf => exact Or.inl (detailImagesFileCheck_not_ok _ _ heqf)
  split
  · exact Or.inl rfl
  split
  · exact Or.inl rfl
  split
  · exact Or.inl rfl
  next st3 urls heqL =>
  have hurls : urls.map (·.2) = List.range req.images.length := by
    have := createImageLoop_ok env db.nextProductId req.images 0 [] _ _ _ heqL
    rw [this]
    simp [List.range_eq_range']
  have hlen : urls.length = req.images.length := by
    have := congrArg List.length hurls
    simpa using this
  have hdb3 : st3.db.productImages = db.productImages ∧
      st3.db.productDetails = db.productDetails := by
    have h := congrArg (fun x => x.1.db) heqL
    dsimp only at h
    rw [createImageLoop_db] at h
    constructor <;> rw [← h]
  split
  · exact Or.inl rfl
  next st4 heqA =>
  have hne : ¬ urls.isEmpty = true := by
    have := createValid_images req hval
    rw [List.isEmpty_iff_length_eq_zero, hlen]
    omega
  have hst4 : st4.db.productImages
        = st3.db.productImages ++ urls.enum.map (fun (k, u) =>
            ({ image_id := st3.db.nextImageId + k, product_id := db.nextProductId,
               image_url := u.1, image_order := u.2 } : ImageRow)) ∧
      st4.db.productDetails = st3.db.productDetails := by
    split at heqA
    · next hcond => exact absurd hcond hne
    · split at heqA
      · cases heqA; exact ⟨rfl, rfl⟩
      · cases heqA
  have himgRecs :
      (urls.enum.map (fun (k, u) =>
        ({ image_id := st3.db.nextImageId + k, product_id := db.nextProductId,
           image_url := u.1, image_order := u.2 } : ImageRow))).map (·.image_order)
        = List.range req.images.length := by
    rw [List.map_map]
    have h2 : ((fun (r : ImageRow) => r.image_order) ∘
        (fun (ku : Nat × (UrlT × Nat)) =>
          ({ image_id := st3.db.nextImageId + ku.1, product_id := db.nextProductId,
             image_url := ku.2.1, image_order := ku.2.2 } : ImageRow)))
        = (fun (u : UrlT × Nat) => u.2) ∘ Prod.snd := rfl
    rw [h2, ← List.map_map, List.enum_map_snd, hurls]
  have himgPid : ∀ r ∈ urls.enum.map (fun (k, u) =>
      ({ image_id := st3.db.nextImageId + k, product_id := db.nextProductId,
         image_url := u.1, image_order := u.2 } : ImageRow)),
      r.product_id = db.nextProductId := by
    intro r hr
    rw [List.mem_map] at hr
    obtain ⟨ku, _, hr⟩ := hr
    rw [← hr]
  split
  · next hdets =>
    rw [List.isEmpty_iff] at hdets
    refine Or.inr ⟨_, [], ?_, himgRecs, himgPid, ?_, ?_, ?_⟩
    · dsimp only
      rw [hst4.1, hdb3.1]
    · dsimp only
      rw [hst4.2, hdb3.2]
      simp
    · rw [hdets]
      simp
    · intro r hr; cases hr
  split
  · exact Or.inl rfl
  next st5 detailRecs heqD =>
  have hD := createDetailLoop_ok env db.nextProductId req.details 0 [] _ _ _
    heqD (by intro r hr; cases hr)
  have hdb5 : st5.db.productImages = st4.db.productImages ∧
      st5.db.productDetails = st4.db.productDetails ∧
      st5.db.nextDetailId = st4.db.nextDetailId := by
    have h := congrArg (fun x => x.1.db) heqD
    dsimp only at h
    rw [createDetailLoop_db] at h
    refine ⟨?_, ?_, ?_⟩ <;> rw [← h]
  split
  · refine Or.inr ⟨_, detailRecs.enum.map (fun (k, r) =>
        { r with detail_id := st5.db.nextDetailId + k }), ?_, himgRecs, himgPid,
        ?_, ?_, ?_⟩
    · dsimp only
      rw [hdb5.1, hst4.1, hdb3.1]
    · dsimp only
      rw [hdb5.2.1, hst4.2, hdb3.2]
    · rw [List.map_map]
      have h2 : ((fun (r : DetailRow) => r.detail_order) ∘
          (fun (kr : Nat × DetailRow) =>
            { kr.2 with detail_id := st5.db.nextDetailId + kr.1 }))
          = (fun (r : DetailRow) => r.detail_order) ∘ Prod.snd := rfl
      rw [h2, ← List.map_map, List.enum_map_snd, hD.1]
      simp [List.range_eq_range']
    · intro r hr
      rw [List.mem_map] at hr
      obtain ⟨kr, hkr, hr⟩ := hr
      rw [← hr]
      refine hD.2 kr.2 ?_
      rw [← List.enum_map_snd detailRecs]
      exact List.mem_map_of_mem _ hkr
  · exact Or.inl rfl


theorem insertSorted_perm (key : α → Nat) (x : α) :
    ∀ l : List α, List.Perm (insertSorted key x l) (x :: l) := by
  intro l
  induction l with
  | nil => rfl
  | cons y ys ih =>
    unfold insertSorted
    split
    · exact ((ih.cons y).trans (List.Perm.swap x y ys))
    · rfl

theorem sortByKey_perm (key : α → Nat) :
    ∀ l : List α, List.Perm (sortByKey key l) l := by
  intro l
  induction l with
  | nil => rfl
  | cons x xs ih =>
    unfold sortByKey
    exact (insertSorted_perm key x (sortByKey key xs)).trans (ih.cons x)

theorem mem_sortByKey (key : α → Nat) (l : List α) (a : α) :
    a ∈ sortByKey key l ↔ a ∈ l :=
  (sortByKey_perm key l).mem_iff

/-- Over a duplicate-free list, looking up the position of each element
in turn yields exactly the positions 0, 1, ..., n-1. -/
theorem indexOf_self_map (l : List Nat) (hnd : l.Nodup) :
    l.map (fun a => l.indexOf a) = List.range l.length := by
  apply List.ext_getElem
  · simp
  · intro i h1 h2
    simp only [List.getElem_map, List.getElem_range]
    exact List.indexOf_getElem hnd i (by simpa using h1)

/-- The store facts the general theorems draw from well-formedness. -/
theorem wfb_facts (db : DB) (h : db.wfb = true) :
    (db.productImages.map (·.image_id)).Nodup ∧
    (∀ r ∈ db.productImages, r.product_id ≠ db.nextProductId) ∧
    (∀ d ∈ db.productDetails, d.product_id ≠ db.nextProductId) ∧
    (∀ d ∈ db.productDetails, d.detail_id < db.nextDetailId) := by
  unfold DB.wfb at h
  simp only [Bool.and_eq_true, decide_eq_true_eq, List.all_eq_true,
    List.any_eq_true, decide_eq_true_eq, beq_iff_eq] at h
  obtain ⟨⟨⟨⟨⟨⟨⟨⟨_, hImgNd⟩, _⟩, hPidLt⟩, _⟩, hDetLt⟩, hImgRef⟩, hDetRef⟩, _⟩ := h
  refine ⟨hImgNd, ?_, ?_, hDetLt⟩
  · intro r hr
    obtain ⟨p, hp, hpe⟩ := hImgRef r hr
    rw [← hpe]
    exact Nat.ne_of_lt (hPidLt p hp)
  · intro d hd
    obtain ⟨p, hp, hpe⟩ := hDetRef d hd
    rw [← hpe]
    exact Nat.ne_of_lt (hPidLt p hp)

/-- With an empty kept-id list and no new files, the image deletion block
deletes every image row of the product and succeeds (given the store
accepts the delete), leaving the other tables untouched. -/
theorem imageDeletePhase_empty_kept (env : UpdEnv) (pid : Nat) (st : St)
    (hdel : env.imgDeleteByIdsOk = true) :
    ∃ st1, imageDeletePhase env pid [] [] (existingImagesOf st.db pid) st
        = (st1, none) ∧
      st1.db.productImages.filter (fun r => r.product_id == pid) = [] ∧
      st1.db.productDetails = st.db.productDetails ∧
      st1.db.products = st.db.products := by
  have hfilter : (existingImagesOf st.db pid).filter
      (fun img => !([] : List Nat).contains img.image_id)
      = existingImagesOf st.db pid := by
    simp
  unfold imageDeletePhase
  dsimp only
  rw [hfilter]
  by_cases hempty : (existingImagesOf st.db pid).length > 0
  · rw [if_pos hempty, if_pos hdel]
    refine ⟨_, rfl, ?_, rfl, rfl⟩
    unfold deleteImageRows
    dsimp only
    rw [List.filter_filter]
    rw [List.filter_eq_nil_iff]
    intro r hr
    by_cases hpid : r.product_id = pid
    · intro hcontra
      simp only [Bool.and_eq_true, beq_iff_eq, Bool.not_eq_true'] at hcontra
      have hmem : r ∈ existingImagesOf st.db pid :=
        (mem_sortByKey (fun x : ImageRow => x.image_order)
          (st.db.productImages.filter (fun x => x.product_id == pid)) r).mpr
          (List.mem_filter.mpr ⟨hr, by simp [hpid]⟩)
      have hmap : r.image_id ∈ (existingImagesOf st.db pid).map (·.image_id) :=
        List.mem_map_of_mem _ hmem
      have hc : ((existingImagesOf st.db pid).map (·.image_id)).contains
          r.image_id = true :=
        List.contains_iff_exists_mem_beq.mpr ⟨r.image_id, hmap, by simp⟩
      rw [hcontra.2] at hc
      cases hc
    · intro hcontra
      simp only [Bool.and_eq_true, beq_iff_eq] at hcontra
      exact hpid hcontra.1
  · rw [if_neg hempty, if_neg (by simp)]
    refine ⟨_, rfl, ?_, rfl, rfl⟩
    have hnil : existingImagesOf st.db pid = [] := by
      rw [← List.length_eq_zero]
      omega
    have := sortByKey_perm (fun r : ImageRow => r.image_order)
      (st.db.productImages.filter (fun r => r.product_id == pid))
    rw [show sortByKey (fun r : ImageRow => r.image_order)
        (st.db.productImages.filter (fun r => r.product_id == pid))
        = existingImagesOf st.db pid from rfl, hnil] at this
    exact (this.symm.eq_nil)

/-- With no kept detail ids and no detail entries, the detail phase
either deletes the whole collection or does nothing; it succeeds (given
the store accepts the delete) and touches neither the image table nor the
products table. -/
theorem detailPhase_empty (env : UpdEnv) (pid : Nat) (st : St)
    (hdel : env.detDeleteAllOk = true) :
    ∃ st2, detailPhase env pid [] [] st = (st2, none) ∧
      st2.db.productImages = st.db.productImages ∧
      st2.db.products = st.db.products := by
  unfold detailPhase detailInsertBlock
  dsimp only
  by_cases hlen : ((existingDetailsOf st.db pid).filter
      (fun d => !([] : List Nat).contains d.detail_id)).length > 0
  · rw [if_pos (Or.inl hlen), if_pos hdel, if_neg (by simp)]
    exact ⟨_, rfl, rfl, rfl⟩
  · rw [if_neg (by
      intro hor
      rcases hor with h1 | h1
      · exact hlen h1
      · simp at h1)]
    exact ⟨_, rfl, rfl, rfl⟩

theorem existingImagesToKeep_nil (ex : List ImageRow) :
    existingImagesToKeep ex [] = [] := rfl

theorem imageOrderLoop_nil (env : UpdEnv) (i : Nat) (st : St) :
    imageOrderLoop env i [] st = (st, none) := rfl

theorem imageUploadLoop_nil (env : UpdEnv) (pid so j : Nat) (st : St) :
    imageUploadLoop env pid so j [] st = (st, none) := rfl

/-- A successful create passed validation. -/
theorem createAction_ok_valid (env : CreateEnv) (uid : Nat) (req : CreateReq)
    (db : DB) :
    (createAction env uid req db).res.isOk = true → createValid req = true := by
  unfold createAction
  dsimp only
  split
  · intro h; cases h
  · next hvaln =>
    intro _
    rw [Bool.not_eq_true, Bool.not_eq_false] at hvaln
    exact hvaln

/-- The image rows of one product, in table order. -/
def imagesOf (db : DB) (pid : Nat) : List ImageRow :=
  db.productImages.filter (fun r => r.product_id == pid)

/-- The detail rows of one product, in table order. -/
def detailsOf (db : DB) (pid : Nat) : List DetailRow :=
  db.productDetails.filter (fun d => d.product_id == pid)

/-- The kept ids that matched a loaded row, in caller order. -/
def matchedKeptIds (db : DB) (pid : Nat) (ks : List Nat) : List Nat :=
  (existingImagesToKeep (existingImagesOf db pid) ks).map (·.image_id)

/-- The matched kept-id list is the caller list restricted to ids that
name a loaded row (unmatched ids are silently dropped). -/
theorem existingImagesToKeep_map_id (ex : List ImageRow) :
    ∀ ks : List Nat,
    (existingImagesToKeep ex ks).map (·.image_id)
      = ks.filter (fun i => ex.any (fun r => r.image_id == i)) := by
  intro ks
  induction ks with
  | nil => rfl
  | cons k rest ih =>
    unfold existingImagesToKeep at ih ⊢
    rw [List.map_cons, List.filter_cons]
    cases hf : ex.find? (fun img => img.image_id == k) with
    | none =>
      have hna : ex.any (fun r => r.image_id == k) = false := by
        rw [List.any_eq_false]
        intro r hr
        have := List.find?_eq_none.mp hf r hr
        simpa using this
      rw [hna]
      simpa [List.reduceOption_cons_of_none, hf] using ih
    | some r =>
      have hid : r.image_id = k := by
        have := List.find?_some hf
        simpa using this
      have ha : ex.any (fun x => x.image_id == k) = true := by
        rw [List.any_eq_true]
        exact ⟨r, List.mem_of_find?_eq_some hf, by simp [hid]⟩
      rw [ha]
      simp only [List.reduceOption_cons_of_some, List.map_cons, hid, if_pos]
      rw [ih]

theorem mem_matchedKeptIds (db : DB) (pid : Nat) (ks : List Nat) (i : Nat) :
    i ∈ matchedKeptIds db pid ks
      ↔ i ∈ ks ∧ ∃ r ∈ imagesOf db pid, r.image_id = i := by
  unfold matchedKeptIds
  rw [existingImagesToKeep_map_id, List.mem_filter]
  constructor
  · rintro ⟨hks, hany⟩
    simp only [List.any_eq_true, beq_iff_eq] at hany
    obtain ⟨r, hr, hid⟩ := hany
    exact ⟨hks, r, (mem_sortByKey _ _ _).mp hr, hid⟩
  · rintro ⟨hks, r, hr, hid⟩
    refine ⟨hks, ?_⟩
    simp only [List.any_eq_true, beq_iff_eq]
    exact ⟨r, (mem_sortByKey _ _ _).mpr hr, hid⟩

theorem matchedKeptIds_nodup (db : DB) (pid : Nat) (ks : List Nat)
    (hks : ks.Nodup) : (matchedKeptIds db pid ks).Nodup := by
  unfold matchedKeptIds
  rw [existingImagesToKeep_map_id]
  exact hks.filter _

theorem natList_contains_iff (l : List Nat) (a : Nat) :
    l.contains a = true ↔ a ∈ l := by
  induction l with
  | nil => simp
  | cons b bs ih =>
    rw [List.contains_cons]
    constructor
    · intro h
      rw [Bool.or_eq_true] at h
      rcases h with h | h
      · rw [beq_iff_eq] at h
        exact h ▸ List.mem_cons_self b bs
      · exact List.mem_cons_of_mem b (ih.mp h)
    · intro h
      rcases List.mem_cons.mp h with h | h
      · subst h; simp
      · rw [Bool.or_eq_true]
        exact Or.inr (ih.mpr h)

theorem natList_contains_false_iff (l : List Nat) (a : Nat) :
    l.contains a = false ↔ a ∉ l := by
  rw [← natList_contains_iff l a]
  cases l.contains a <;> simp

/-- The image deletion block, on success: the table keeps exactly the
rows of other products and the kept rows of this product; the identity
counter is unchanged. -/
theorem imageDeletePhase_images (env : UpdEnv) (pid : Nat) (ks : List Nat)
    (newFiles : List FileData) (st st1 : St)
    (hnd : (st.db.productImages.map (·.image_id)).Nodup)
    (heq : imageDeletePhase env pid ks newFiles (existingImagesOf st.db pid) st
      = (st1, none)) :
    st1.db.productImages = st.db.productImages.filter
      (fun r => (r.product_id != pid) || ks.contains r.image_id) ∧
    st1.db.nextImageId = st.db.nextImageId := by
  have hmemdel : ∀ r ∈ st.db.productImages,
      (r.image_id ∈ ((existingImagesOf st.db pid).filter
          (fun img => !ks.contains img.image_id)).map (·.image_id)
        ↔ (r.product_id = pid ∧ r.image_id ∉ ks)) := by
    intro r hr
    constructor
    · intro hmem
      rw [List.mem_map] at hmem
      obtain ⟨r2, hr2, hid⟩ := hmem
      rw [List.mem_filter] at hr2
      have hr2ex := (mem_sortByKey _ _ _).mp hr2.1
      rw [List.mem_filter] at hr2ex
      have hrr : r2 = r := List.inj_on_of_nodup_map hnd hr2ex.1 hr hid
      rw [← hrr]
      refine ⟨by simpa using hr2ex.2, ?_⟩
      have := hr2.2
      rw [Bool.not_eq_true'] at this
      exact (natList_contains_false_iff ks r2.image_id).mp this
    · rintro ⟨hpid, hks⟩
      rw [List.mem_map]
      refine ⟨r, ?_, rfl⟩
      rw [List.mem_filter]
      constructor
      · exact (mem_sortByKey _ _ _).mpr (List.mem_filter.mpr ⟨hr, by simp [hpid]⟩)
      · rw [Bool.not_eq_true']
        exact (natList_contains_false_iff ks r.image_id).mpr hks
  unfold imageDeletePhase at heq
  dsimp only at heq
  split at heq
  · next hlen =>
    split at heq
    · cases heq
      refine ⟨?_, rfl⟩
      show (deleteImageRows st.db _).productImages = _
      unfold deleteImageRows
      dsimp only
      apply List.filter_congr
      intro r hr
      rw [Bool.eq_iff_iff]
      simp only [Bool.not_eq_true', Bool.or_eq_true, bne_iff_ne, ne_eq]
      rw [natList_contains_false_iff, hmemdel r hr, natList_contains_iff]
      tauto
    · simp at heq
  · next hlen =>
    have hToDelNil : (existingImagesOf st.db pid).filter
        (fun img => !ks.contains img.image_id) = [] := by
      rw [← List.length_eq_zero]
      omega
    split at heq
    · next hcond =>
      split at heq
      · cases heq
        refine ⟨?_, rfl⟩
        show (deleteAllImageRows st.db pid).productImages = _
        unfold deleteAllImageRows
        dsimp only
        have hksnil : ks = [] := List.length_eq_zero.mp hcond.1
        subst hksnil
        apply List.filter_congr
        intro r hr
        rw [Bool.eq_iff_iff]
        simp
      · simp at heq
    · cases heq
      refine ⟨?_, rfl⟩
      symm
      rw [List.filter_eq_self]
      intro r hr
      have hkey : r.product_id = pid → r.image_id ∈ ks := by
        intro hpid
        by_contra hks
        have : r.image_id ∈ ((existingImagesOf st.db pid).filter
            (fun img => !ks.contains img.image_id)).map (·.image_id) :=
          (hmemdel r hr).mpr ⟨hpid, hks⟩
        rw [hToDelNil] at this
        cases this
      simp only [Bool.or_eq_true, bne_iff_ne, ne_eq]
      rw [natList_contains_iff]
      by_cases hp : r.product_id = pid
      · exact Or.inr (hkey hp)
      · exact Or.inl hp

/-- The reorder loop, on success: every row whose id occurs in the kept
row list gets the positional index of its id (offset by the loop base)
as its order, by an in-place update; all other rows are untouched. -/
theorem imageOrderLoop_images (env : UpdEnv) :
    ∀ (toKeep : List ImageRow) (i : Nat) (st st' : St),
    imageOrderLoop env i toKeep st = (st', none) →
    (toKeep.map (·.image_id)).Nodup →
    st'.db.productImages = st.db.productImages.map (fun r =>
      if r.image_id ∈ toKeep.map (·.image_id) then
        { r with image_order := i + (toKeep.map (·.image_id)).indexOf r.image_id }
      else r) ∧
    st'.db.nextImageId = st.db.nextImageId ∧
    st'.db.productDetails = st.db.productDetails := by
  intro toKeep
  induction toKeep with
  | nil =>
    intro i st st' heq _
    cases heq
    refine ⟨?_, rfl, rfl⟩
    simp
  | cons img rest ih =>
    intro i st st' heq hnd
    unfold imageOrderLoop at heq
    dsimp only at heq
    split at heq
    · have hnd2 : ((img :: rest).map (·.image_id)).Nodup := hnd
      rw [List.map_cons, List.nodup_cons] at hnd2
      obtain ⟨h1, h2, h3⟩ := ih (i + 1) _ st' heq hnd2.2
      refine ⟨?_, by rw [h2]; rfl, by rw [h3]; rfl⟩
      rw [h1]
      show ((setImageOrder st.db img.image_id i).productImages.map _) = _
      unfold setImageOrder
      dsimp only
      rw [List.map_map]
      apply List.map_congr_left
      intro r _
      simp only [Function.comp_apply, List.map_cons]
      by_cases hid : r.image_id = img.image_id
      · rw [if_pos hid]
        dsimp only
        rw [if_neg (by rw [hid]; exact hnd2.1)]
        rw [if_pos (by rw [hid]; exact List.mem_cons_self _ _)]
        rw [List.indexOf_cons_eq _ hid.symm, Nat.add_zero]
      · rw [if_neg hid]
        by_cases hmem : r.image_id ∈ rest.map (·.image_id)
        · rw [if_pos hmem, if_pos (List.mem_cons_of_mem _ hmem)]
          rw [List.indexOf_cons_ne _ (fun h => hid h.symm)]
          have : i + (Nat.succ ((rest.map (·.image_id)).indexOf r.image_id))
              = i + 1 + (rest.map (·.image_id)).indexOf r.image_id := by omega
          rw [this]
        · rw [if_neg hmem]
          rw [if_neg (by
            intro hc
            rcases List.mem_cons.mp hc with hc | hc
            · exact hid hc
            · exact hmem hc)]
    · simp at heq

/-- The rows the upload loop of update inserts, step by step. -/
def newImageRows (pid ts startOrder : Nat) : Nat → Nat → List FileData → List ImageRow
  | _, _, [] => []
  | nextId, j, f :: rest =>
    { image_id := nextId, product_id := pid,
      image_url := publicUrl (StoragePath.productImage pid ts f.name),
      image_order := startOrder + j } ::
    newImageRows pid ts startOrder (nextId + 1) (j + 1) rest

theorem newImageRows_orders (pid ts startOrder : Nat) :
    ∀ (files : List FileData) (nextId j : Nat),
    (newImageRows pid ts startOrder nextId j files).map (·.image_order)
      = List.range' (startOrder + j) files.length := by
  intro files
  induction files with
  | nil => intro nextId j; rfl
  | cons f rest ih =>
    intro nextId j
    unfold newImageRows
    rw [List.map_cons, List.length_cons, List.range'_succ, ih]
    have : startOrder + j + 1 = startOrder + (j + 1) := by omega
    rw [this]

theorem newImageRows_pid (pid ts startOrder : Nat) :
    ∀ (files : List FileData) (nextId j : Nat),
    ∀ r ∈ newImageRows pid ts startOrder nextId j files, r.product_id = pid := by
  intro files
  induction files with
  | nil => intro nextId j r hr; cases hr
  | cons f rest ih =>
    intro nextId j r hr
    unfold newImageRows at hr
    rcases List.mem_cons.mp hr with hr | hr
    · rw [hr]
    · exact ih _ _ r hr

/-- The upload loop of update, on success: the new rows are appended in
caller order with consecutive orders after the kept block; nothing else
changes in the tables. -/
theorem imageUploadLoop_images (env : UpdEnv) (pid startOrder : Nat) :
    ∀ (files : List FileData) (j : Nat) (st st' : St),
    imageUploadLoop env pid startOrder j files st = (st', none) →
    st'.db.productImages = st.db.productImages
        ++ newImageRows pid env.ts startOrder st.db.nextImageId j files ∧
    st'.db.productDetails = st.db.productDetails := by
  intro files
  induction files with
  | nil =>
    intro j st st' heq
    cases heq
    exact ⟨by simp [newImageRows], rfl⟩
  | cons f rest ih =>
    intro j st st' heq
    unfold imageUploadLoop at heq
    dsimp only at heq
    split at heq
    · split at heq
      · obtain ⟨h1, h2⟩ := ih (j + 1) _ st' heq
        refine ⟨?_, by rw [h2]⟩
        rw [h1]
        dsimp only
        rw [List.append_assoc]
        rfl
      · simp at heq
    · simp at heq

theorem imageDeletePhase_details (env : UpdEnv) (pid : Nat) (ks : List Nat)
    (newFiles : List FileData) (exImgs : List ImageRow) (st : St) :
    ((imageDeletePhase env pid ks newFiles exImgs st).1).db.productDetails
      = st.db.productDetails := by
  unfold imageDeletePhase
  dsimp only
  repeat' split
  all_goals simp [deleteImageRows, deleteAllImageRows]

theorem imageOrderLoop_details (env : UpdEnv) :
    ∀ (toKeep : List ImageRow) (i : Nat) (st : St),
    ((imageOrderLoop env i toKeep st).1).db.productDetails
      = st.db.productDetails := by
  intro toKeep
  induction toKeep with
  | nil => intro i st; rfl
  | cons img rest ih =>
    intro i st
    unfold imageOrderLoop
    split
    · rw [ih]; simp [setImageOrder]
    · rfl

theorem imageUploadLoop_details (env : UpdEnv) (pid startOrder : Nat) :
    ∀ (files : List FileData) (j : Nat) (st : St),
    ((imageUploadLoop env pid startOrder j files st).1).db.productDetails
      = st.db.productDetails := by
  intro files
  induction files with
  | nil => intro j st; rfl
  | cons f rest ih =>
    intro j st
    unfold imageUploadLoop
    split
    · split
      · rw [ih]
      · rw [cleanupUploads_db]
    · rw [cleanupUploads_db]

theorem imagePhase_details (env : UpdEnv) (pid : Nat) (keptIds : List Nat)
    (newFiles : List FileData) (exImgs : List ImageRow) (st : St) :
    ((imagePhase env pid keptIds newFiles exImgs st).1).db.productDetails
      = st.db.productDetails := by
  unfold imagePhase
  split
  · next heq =>
    have := imageDeletePhase_details env pid keptIds newFiles exImgs st
    rw [heq] at this; exact this
  · next st1 heq =>
    have h1 := imageDeletePhase_details env pid keptIds newFiles exImgs st
    rw [heq] at h1
    dsimp only
    split
    · next heq2 =>
      have h2 := imageOrderLoop_details env
        (existingImagesToKeep exImgs keptIds) 0 st1
      rw [heq2] at h2
      exact h2.trans h1
    · next st2 heq2 =>
      have h2 := imageOrderLoop_details env
        (existingImagesToKeep exImgs keptIds) 0 st1
      rw [heq2] at h2
      rw [imageUploadLoop_details]
      exact h2.trans h1

/-- The image reconciliation, on success: the order values of the final
image rows of the product are exactly 0..n-1 (as a multiset) where n
counts the matched kept ids plus the new files; each matched kept id q
still names a row — the same row id — carrying order q; the detail table
is untouched. -/
theorem imagePhase_ok_images (env : UpdEnv) (pid : Nat) (ks : List Nat)
    (newFiles : List FileData) (exImgs : List ImageRow) (st st' : St)
    (hex : exImgs = existingImagesOf st.db pid)
    (hnd : (st.db.productImages.map (·.image_id)).Nodup)
    (hks : ks.Nodup)
    (heq : imagePhase env pid ks newFiles exImgs st = (st', none)) :
    List.Perm ((imagesOf st'.db pid).map (·.image_order))
      (List.range ((matchedKeptIds st.db pid ks).length + newFiles.length)) ∧
    (∀ q i, (matchedKeptIds st.db pid ks)[q]? = some i →
      ∃ r ∈ imagesOf st'.db pid,
        r.image_id = i ∧
        r.image_order = q) ∧
    st'.db.productDetails = st.db.productDetails := by
  subst hex
  have hDet := imagePhase_details env pid ks newFiles
    (existingImagesOf st.db pid) st
  rw [heq] at hDet
  refine ?_
  unfold imagePhase at heq
  split at heq
  · simp at heq
  next stA heqDel =>
  obtain ⟨hA1, hA2⟩ := imageDeletePhase_images env pid ks newFiles st stA hnd heqDel
  dsimp only at heq
  split at heq
  · simp at heq
  next stB heqOrd =>
  set toKeep := existingImagesToKeep (existingImagesOf st.db pid) ks with htk
  have hmatched : matchedKeptIds st.db pid ks = toKeep.map (·.image_id) := rfl
  have hndM : (toKeep.map (·.image_id)).Nodup := by
    rw [← hmatched]
    exact matchedKeptIds_nodup st.db pid ks hks
  obtain ⟨hB1, hB2, hB3⟩ := imageOrderLoop_images env toKeep 0 stA stB heqOrd hndM
  obtain ⟨hC1, hC2⟩ := imageUploadLoop_images env pid toKeep.length newFiles 0 stB st' heq
  -- the final image table
  set matched := toKeep.map (·.image_id) with hm
  set g : ImageRow → ImageRow := fun r =>
    if r.image_id ∈ matched then
      { r with image_order := 0 + matched.indexOf r.image_id }
    else r with hg
  set K : List ImageRow := st.db.productImages.filter
    (fun r => r.product_id == pid && ks.contains r.image_id) with hK
  have hKsub : (K.map (·.image_id)).Nodup := by
    refine List.Nodup.sublist ?_ hnd
    exact (List.filter_sublist _).map _
  have hmemK : ∀ i, i ∈ K.map (·.image_id) ↔ i ∈ matched := by
    intro i
    rw [← hmatched, mem_matchedKeptIds]
    constructor
    · intro hi
      rw [List.mem_map] at hi
      obtain ⟨r, hr, hid⟩ := hi
      rw [hK, List.mem_filter, Bool.and_eq_true, beq_iff_eq] at hr
      refine ⟨?_, r, ?_, hid⟩
      · rw [← hid]
        exact (natList_contains_iff ks r.image_id).mp hr.2.2
      · unfold imagesOf
        rw [List.mem_filter]
        exact ⟨hr.1, by simp [hr.2.1]⟩
    · rintro ⟨hksmem, r, hr, hid⟩
      unfold imagesOf at hr
      rw [List.mem_filter] at hr
      rw [List.mem_map]
      refine ⟨r, ?_, hid⟩
      rw [hK, List.mem_filter, Bool.and_eq_true]
      refine ⟨hr.1, hr.2, ?_⟩
      rw [natList_contains_iff, hid]
      exact hksmem
  have hpermIds : List.Perm (K.map (·.image_id)) matched :=
    (List.perm_ext_iff_of_nodup hKsub hndM).mpr hmemK
  have hfinal : imagesOf st'.db pid = K.map g
      ++ newImageRows pid env.ts toKeep.length stB.db.nextImageId 0 newFiles := by
    unfold imagesOf
    rw [hC1, List.filter_append, hB1, hA1]
    congr 1
    · rw [List.filter_map]
      have hpd : ∀ r, ((fun x => x.product_id == pid) ∘ g) r
          = (fun x => x.product_id == pid) r := by
        intro r
        rw [hg]
        dsimp only [Function.comp_apply]
        by_cases hmem : r.image_id ∈ matched <;> simp [hmem]
      rw [List.filter_congr (fun r _ => hpd r)]
      rw [List.filter_filter, hK]
      congr 1
      apply List.filter_congr
      intro r _
      by_cases hp : r.product_id = pid <;>
        by_cases hk : r.image_id ∈ ks <;>
          simp [hp, hk]
    · rw [List.filter_eq_self]
      intro r hr
      have := newImageRows_pid pid env.ts toKeep.length newFiles
        stB.db.nextImageId 0 r hr
      simp [this]
  have horders : (imagesOf st'.db pid).map (·.image_order)
      = (K.map (·.image_id)).map (fun i => matched.indexOf i)
        ++ List.range' toKeep.length newFiles.length := by
    rw [hfinal, List.map_append]
    congr 1
    · rw [List.map_map, List.map_map]
      apply List.map_congr_left
      intro r hr
      dsimp only [Function.comp_apply]
      rw [hg]
      dsimp only
      have hrm : r.image_id ∈ matched := by
        rw [← hmemK]
        exact List.mem_map_of_mem _ hr
      rw [if_pos hrm]
      simp
    · have := newImageRows_orders pid env.ts toKeep.length newFiles
        stB.db.nextImageId 0
      rw [this, Nat.add_zero]
  refine ⟨?_, ?_, hDet⟩
  · rw [horders, hmatched]
    have hlen : toKeep.length = matched.length := by rw [hm, List.length_map]
    have hperm1 : List.Perm ((K.map (·.image_id)).map (fun i => matched.indexOf i))
        (matched.map (fun i => matched.indexOf i)) := hpermIds.map _
    rw [indexOf_self_map matched hndM] at hperm1
    refine List.Perm.trans (hperm1.append_right _) ?_
    have hcat : List.range matched.length
        ++ List.range' toKeep.length newFiles.length
        = List.range (matched.length + newFiles.length) := by
      rw [hlen, List.range_eq_range', List.range_eq_range',
        Nat.add_comm matched.length newFiles.length]
      have := List.range'_append_1 0 matched.length newFiles.length
      simpa using this
    rw [hcat]
  · intro q i hqi
    rw [List.getElem?_eq_some] at hqi
    obtain ⟨hq, hgi⟩ := hqi
    have hq2 : q < matched.length := hq
    have hqm : i ∈ matched := by
      rw [← hgi, ← hmatched]
      exact List.getElem_mem hq
    have hqK : i ∈ K.map (·.image_id) := (hmemK _).mpr hqm
    rw [List.mem_map] at hqK
    obtain ⟨r, hrK, hrid⟩ := hqK
    refine ⟨g r, ?_, ?_, ?_⟩
    · rw [hfinal]
      exact List.mem_append_left _ (List.mem_map_of_mem g hrK)
    · rw [hg]
      dsimp only
      rw [if_pos (by rw [hrid]; exact hqm)]
      exact hrid
    · rw [hg]
      dsimp only
      rw [if_pos (by rw [hrid]; exact hqm)]
      dsimp only
      rw [hrid]
      have hidx : matched.indexOf i = q := by
        rw [← hgi]
        exact List.indexOf_getElem hndM q hq2
      rw [hidx]
      exact Nat.zero_add q

theorem imageDeletePhase_nextDetailId (env : UpdEnv) (pid : Nat) (ks : List Nat)
    (newFiles : List FileData) (exImgs : List ImageRow) (st : St) :
    ((imageDeletePhase env pid ks newFiles exImgs st).1).db.nextDetailId
      = st.db.nextDetailId := by
  unfold imageDeletePhase
  dsimp only
  repeat' split
  all_goals simp [deleteImageRows, deleteAllImageRows]

theorem imageOrderLoop_nextDetailId (env : UpdEnv) :
    ∀ (toKeep : List ImageRow) (i : Nat) (st : St),
    ((imageOrderLoop env i toKeep st).1).db.nextDetailId
      = st.db.nextDetailId := by
  intro toKeep
  induction toKeep with
  | nil => intro i st; rfl
  | cons img rest ih =>
    intro i st
    unfold imageOrderLoop
    split
    · rw [ih]; simp [setImageOrder]
    · rfl

theorem imageUploadLoop_nextDetailId (env : UpdEnv) (pid startOrder : Nat) :
    ∀ (files : List FileData) (j : Nat) (st : St),
    ((imageUploadLoop env pid startOrder j files st).1).db.nextDetailId
      = st.db.nextDetailId := by
  intro files
  induction files with
  | nil => intro j st; rfl
  | cons f rest ih =>
    intro j st
    unfold imageUploadLoop
    split
    · split
      · rw [ih]
      · rw [cleanupUploads_db]
    · rw [cleanupUploads_db]

/-- The image phase never touches the detail-identity counter. -/
theorem imagePhase_nextDetailId (env : UpdEnv) (pid : Nat) (keptIds : List Nat)
    (newFiles : List FileData) (exImgs : List ImageRow) (st : St) :
    ((imagePhase env pid keptIds newFiles exImgs st).1).db.nextDetailId
      = st.db.nextDetailId := by
  unfold imagePhase
  split
  · next heq =>
    have := imageDeletePhase_nextDetailId env pid keptIds newFiles exImgs st
    rw [heq] at this; exact this
  · next st1 heq =>
    have h1 := imageDeletePhase_nextDetailId env pid keptIds newFiles exImgs st
    rw [heq] at h1
    dsimp only
    split
    · next heq2 =>
      have h2 := imageOrderLoop_nextDetailId env
        (existingImagesToKeep exImgs keptIds) 0 st1
      rw [heq2] at h2
      exact h2.trans h1
    · next st2 heq2 =>
      have h2 := imageOrderLoop_nextDetailId env
        (existingImagesToKeep exImgs keptIds) 0 st1
      rw [heq2] at h2
      rw [imageUploadLoop_nextDetailId]
      exact h2.trans h1

/-- The detail-record loop of update, on success: the built records carry
the positional orders i, i+1, ... after the accumulator, every new record
names the product, and the loop writes nothing to the store. -/
theorem updateDetailLoop_ok (env : UpdEnv) (pid : Nat) (exd : List DetailRow) :
    ∀ (dets : List DetailInputU) (i : Nat) (acc : List DetailRow) (st st' : St)
      (recs : List DetailRow),
    updateDetailLoop env pid exd i dets acc st = (st', recs, none) →
    recs.map (·.detail_order) = acc.map (·.detail_order)
        ++ List.range' i dets.length ∧
    (∀ r ∈ recs, r ∈ acc ∨ r.product_id = pid) ∧
    st'.db = st.db := by
  intro dets
  induction dets with
  | nil =>
    intro i acc st st' recs heq
    cases heq
    exact ⟨by simp, fun r hr => Or.inl hr, rfl⟩
  | cons d rest ih =>
    intro i acc st st' recs heq
    unfold updateDetailLoop at heq
    dsimp only at heq
    split at heq
    · split at heq
      · obtain ⟨h1, h2, h3⟩ := ih (i + 1) _ _ st' recs heq
        refine ⟨?_, ?_, h3.trans rfl⟩
        · rw [h1, List.map_append, List.length_cons, List.range'_succ,
            List.append_assoc]
          rfl
        · intro r hr
          rcases h2 r hr with hmem | hpid
          · rcases List.mem_append.mp hmem with hmem | hmem
            · exact Or.inl hmem
            · right
              rw [List.mem_singleton] at hmem
              rw [hmem]
          · exact Or.inr hpid
      · simp at heq
    · obtain ⟨h1, h2, h3⟩ := ih (i + 1) _ _ st' recs heq
      refine ⟨?_, ?_, h3⟩
      · rw [h1, List.map_append, List.length_cons, List.range'_succ,
          List.append_assoc]
        rfl
      · intro r hr
        rcases h2 r hr with hmem | hpid
        · rcases List.mem_append.mp hmem with hmem | hmem
          · exact Or.inl hmem
          · right
            rw [List.mem_singleton] at hmem
            rw [hmem]
        · exact Or.inr hpid

/-- The re-insert block of the detail reconciliation, on success with
entries submitted: the fresh records are appended carrying the positional
orders 0..n-1, all naming the product, all with ids at or above the
detail counter; the other tables are untouched. -/
theorem detailInsertBlock_ok (env : UpdEnv) (pid : Nat) (exd : List DetailRow)
    (dets : List DetailInputU) (stI st' : St)
    (hne : 0 < dets.length)
    (heq : detailInsertBlock env pid exd dets stI = (st', none)) :
    ∃ recs : List DetailRow,
      st'.db.productDetails = stI.db.productDetails ++ recs ∧
      recs.map (·.detail_order) = List.range dets.length ∧
      (∀ r ∈ recs, r.product_id = pid) ∧
      (∀ r ∈ recs, stI.db.nextDetailId ≤ r.detail_id) ∧
      st'.db.productImages = stI.db.productImages ∧
      st'.db.products = stI.db.products := by
  unfold detailInsertBlock at heq
  rw [if_pos hne] at heq
  rcases hloop : updateDetailLoop env pid exd 0 dets [] stI with ⟨st3, detailRecs, err⟩
  rw [hloop] at heq
  cases err with
  | some e => simp at heq
  | none =>
    dsimp only at heq
    split at heq
    · obtain ⟨h1, h2, h3⟩ := updateDetailLoop_ok env pid exd dets 0 [] stI st3
        detailRecs hloop
    -- the inserted records, ids freshly assigned from the counter
      cases heq
      refine ⟨detailRecs.enum.map (fun kr =>
          { kr.2 with detail_id := st3.db.nextDetailId + kr.1 }), ?_, ?_, ?_, ?_, ?_, ?_⟩
      · show st3.db.productDetails ++ _ = stI.db.productDetails ++ _
        rw [h3]
      · rw [List.map_map]
        have hcomp : ((fun r : DetailRow => r.detail_order) ∘
            (fun kr : Nat × DetailRow =>
              { kr.2 with detail_id := st3.db.nextDetailId + kr.1 }))
            = (fun r : DetailRow => r.detail_order) ∘ Prod.snd := rfl
        rw [hcomp, ← List.map_map, List.enum_map_snd, h1]
        simp [List.range_eq_range']
      · intro r hr
        rw [List.mem_map] at hr
        obtain ⟨kr, hkr, hr⟩ := hr
        rw [← hr]
        show kr.2.product_id = pid
        have hmem : kr.2 ∈ detailRecs := by
          rw [← List.enum_map_snd detailRecs]
          exact List.mem_map_of_mem _ hkr
        rcases h2 kr.2 hmem with hcontra | hpid
        · cases hcontra
        · exact hpid
      · intro r hr
        rw [List.mem_map] at hr
        obtain ⟨kr, hkr, hr⟩ := hr
        rw [← hr]
        show stI.db.nextDetailId ≤ st3.db.nextDetailId + kr.1
        rw [h3]
        exact Nat.le_add_right _ _
      · show st3.db.productImages = stI.db.productImages
        rw [h3]
      · show st3.db.products = stI.db.products
        rw [h3]
    · simp at heq

/-- After the whole-collection delete, no detail row of the product
remains. -/
theorem deleteAllDetailRows_self (db : DB) (pid : Nat) :
    (deleteAllDetailRows db pid).productDetails.filter
      (fun r => r.product_id == pid) = [] := by
  unfold deleteAllDetailRows
  dsimp only
  rw [List.filter_filter, List.filter_eq_nil_iff]
  intro r _
  by_cases h : r.product_id = pid <;> simp [h]

/-- The detail reconciliation, on success with detail entries submitted:
the product's detail rows afterwards carry exactly the positional orders
0..n-1 in entry order, every one has a fresh id at or above the detail
counter, and the image and product tables are untouched. -/
theorem detailPhase_ok_nonempty (env : UpdEnv) (pid : Nat) (kds : List Nat)
    (dets : List DetailInputU) (st st' : St)
    (hne : 0 < dets.length)
    (heq : detailPhase env pid kds dets st = (st', none)) :
    (detailsOf st'.db pid).map (·.detail_order) = List.range dets.length ∧
    (∀ r ∈ detailsOf st'.db pid, st.db.nextDetailId ≤ r.detail_id) ∧
    st'.db.productImages = st.db.productImages ∧
    st'.db.products = st.db.products := by
  unfold detailPhase at heq
  dsimp only at heq
  rw [if_pos (Or.inr hne)] at heq
  split at heq
  · obtain ⟨recs, h1, h2, h3, h4, h5, h6⟩ :=
      detailInsertBlock_ok env pid (existingDetailsOf st.db pid) dets _ st' hne heq
    have hrows : detailsOf st'.db pid = recs := by
      unfold detailsOf
      rw [h1, List.filter_append]
      have hl := deleteAllDetailRows_self st.db pid
      rw [show ((deleteAllDetailRows st.db pid).productDetails.filter
          (fun r => r.product_id == pid)) = [] from hl]
      rw [List.filter_eq_self.mpr (by intro r hr; simp [h3 r hr]),
        List.nil_append]
    refine ⟨?_, ?_, h5, h6⟩
    · rw [hrows, h2]
    · intro r hr
      rw [hrows] at hr
      exact h4 r hr
  · simp at heq

/-- The detail reconciliation with no detail entries submitted, on
success: the product's detail rows are unchanged, or the whole collection
was deleted (when some existing detail was dropped); the image and
product tables are untouched. -/
theorem detailPhase_ok_empty (env : UpdEnv) (pid : Nat) (kds : List Nat)
    (st st' : St)
    (heq : detailPhase env pid kds [] st = (st', none)) :
    (detailsOf st'.db pid = detailsOf st.db pid ∨ detailsOf st'.db pid = []) ∧
    st'.db.productImages = st.db.productImages ∧
    st'.db.products = st.db.products := by
  unfold detailPhase at heq
  dsimp only at heq
  split at heq
  · split at heq
    · unfold detailInsertBlock at heq
      rw [if_neg (by simp)] at heq
      cases heq
      refine ⟨Or.inr ?_, rfl, rfl⟩
      exact deleteAllDetailRows_self st.db pid
    · simp at heq
  · cases heq
    exact ⟨Or.inl rfl, rfl, rfl⟩

/-- A successful update ran the slug check (store untouched), then the
image phase, then the detail phase, and only then wrote the scalar
fields: the final store is the scalar rewrite of the detail-phase
output. -/
theorem updateAction_ok_phases (env : UpdEnv) (uid : Nat) (req : UpdateReq)
    (db : DB) :
    (updateAction env uid req db).res.isOk = false ∨
    ∃ st1 st2 st3 : St,
      st1.db = db ∧
      imagePhase env req.product_id req.existing_image_ids req.images
        (existingImagesOf db req.product_id) st1 = (st2, none) ∧
      detailPhase env req.product_id req.existing_detail_ids req.details st2
        = (st3, none) ∧
      (updateAction env uid req db).st.db
        = updateProductScalars st3.db req (chosenSlug req.slug req.title) := by
  unfold updateAction
  dsimp only
  split
  · exact Or.inl rfl
  split
  · exact Or.inl rfl
  next existingProduct heqFind =>
  split
  · exact Or.inl rfl
  split
  · exact Or.inl rfl
  split
  · next e heqf => exact Or.inl (imagesFileCheck_not_ok _ _ heqf)
  split
  · next e heqf => exact Or.inl (detailImagesFileCheck_not_ok _ _ heqf)
  split
  · exact Or.inl rfl
  next st2 heqImg =>
  split
  · exact Or.inl rfl
  next st3 heqDet =>
  exact Or.inr ⟨_, st2, st3, slugUniquenessCheck_db _ _ _ _ _, heqImg, heqDet, rfl⟩

/-- The reorder loop issues only image-order field updates. -/
theorem imageOrderLoop_trace (env : UpdEnv) :
    ∀ (toKeep : List ImageRow) (i : Nat) (st : St),
    ∃ evs, ((imageOrderLoop env i toKeep st).1).trace = st.trace ++ evs ∧
      ∀ ev ∈ evs, ∃ iid ord, ev = Ev.imgOrderUpdate iid ord := by
  intro toKeep
  induction toKeep with
  | nil =>
    intro i st
    exact ⟨[], by rw [imageOrderLoop_nil]; simp, by intro ev hev; cases hev⟩
  | cons img rest ih =>
    intro i st
    unfold imageOrderLoop
    dsimp only
    split
    · obtain ⟨evs, h1, h2⟩ := ih (i + 1)
        { st with db := setImageOrder st.db img.image_id i,
                  trace := st.trace ++ [Ev.imgOrderUpdate img.image_id i] }
      refine ⟨Ev.imgOrderUpdate img.image_id i :: evs, ?_, ?_⟩
      · rw [h1]
        dsimp only
        rw [List.append_assoc]
        rfl
      · intro ev hev
        rcases List.mem_cons.mp hev with hev | hev
        · exact ⟨img.image_id, i, hev⟩
        · exact h2 ev hev
    · exact ⟨[], by simp, by intro ev hev; cases hev⟩

/-- A store holding product 1 with image row 10 and detail row 20. -/
def dbFull : DB := ⟨[productOne], [imageTen], [detailTwenty], [], 2, 11, 21⟩

/-- An update of product 1 by owner 7 that keeps image 10 and nothing
else. -/
def keepTenReq : UpdateReq := { baseUpdateReq with existing_image_ids := [10] }

/-- An update of product 1 by owner 7 that keeps image 10 and re-submits
detail 20 unchanged. -/
def keepTenDetailReq : UpdateReq :=
  { baseUpdateReq with existing_image_ids := [10],
                       details := [⟨[97], [98], none, some 20⟩],
                       existing_detail_ids := [20] }

/-- An update of product 1 by owner 7 whose kept-id list also names the
nonexistent image 999. -/
def bogusKeepReq : UpdateReq := { baseUpdateReq with existing_image_ids := [10, 999] }

/-- C1 amended: the create-side image minimum holds — a create request
with zero image files is rejected by validation before any store call
(store and trace untouched), and every successful create leaves the new
product with at least one image row; but the update-side minimum does
not exist: an otherwise-valid update that keeps no existing image id and
uploads no new file is not rejected — with the store accepting the
deletes it completes successfully and leaves the product with zero image
rows. -/
theorem C1_image_minimum :
    (∀ (env : CreateEnv) (uid : Nat) (req : CreateReq) (db : DB),
      req.images = [] →
      (createAction env uid req db).res = .fieldErrors ∧
      (createAction env uid req db).st.db = db ∧
      (createAction env uid req db).st.trace = []) ∧
    (∀ (env : CreateEnv) (uid : Nat) (req : CreateReq) (db : DB),
      db.wfb = true →
      (createAction env uid req db).res.isOk = true →
      0 < ((createAction env uid req db).st.db.productImages.filter
        (fun r => r.product_id == db.nextProductId)).length) ∧
    (∀ (env : UpdEnv) (uid : Nat) (req : UpdateReq) (db : DB) (p : ProductRow),
      updateValid req = true →
      db.products.find? (fun q => q.product_id == req.product_id) = some p →
      p.created_by = uid →
      chosenSlug req.slug req.title = p.slug →
      req.images = [] → req.existing_image_ids = [] → req.details = [] →
      req.existing_detail_ids = [] →
      env.imgDeleteByIdsOk = true → env.detDeleteAllOk = true →
      (updateAction env uid req db).res = .ok req.product_id p.slug ∧
      (updateAction env uid req db).st.db.productImages.filter
        (fun r => r.product_id == req.product_id) = []) := by
  refine ⟨?_, ?_, ?_⟩
  · intro env uid req db himg
    have hval : createValid req = false := by
      unfold createValid
      rw [himg]
      simp
    unfold createAction
    dsimp only
    rw [if_pos (by simp [hval])]
    exact ⟨rfl, rfl, rfl⟩
  · intro env uid req db hwf hok
    rcases createAction_children env uid req db with hbad |
      ⟨imgRecs, detRecs, hImgs, hOrd, hPid, _, _, _⟩
    · rw [hok] at hbad; cases hbad
    rw [hImgs, List.filter_append]
    have hold : db.productImages.filter
        (fun r => r.product_id == db.nextProductId) = [] := by
      rw [List.filter_eq_nil_iff]
      intro r hr hc
      exact (wfb_facts db hwf).2.1 r hr (by simpa using hc)
    have hnew : imgRecs.filter (fun r => r.product_id == db.nextProductId)
        = imgRecs := by
      rw [List.filter_eq_self]
      intro r hr
      simp [hPid r hr]
    rw [hold, hnew]
    have hlen : imgRecs.length = req.images.length := by
      have := congrArg List.length hOrd
      simpa using this
    have hval := createAction_ok_valid env uid req db hok
    have := createValid_images req hval
    simp only [List.nil_append]
    omega
  · intro env uid req db p hval hfind hown hslug himg hkept hdets hkeptd
      hdel hdeld
    unfold updateAction
    dsimp only
    rw [if_neg (by simp [hval])]
    rw [hfind]
    dsimp only
    rw [if_neg (by simp [hown])]
    rw [hslug, slugUniquenessCheck_self]
    dsimp only
    rw [if_neg (by simp)]
    rw [himg, hdets]
    simp only [imagesFileCheck, detailImagesFileCheck, List.map_nil]
    unfold imagePhase
    rw [hkept]
    obtain ⟨st1, heq1, hfe, hdet1, hprod1⟩ :=
      imageDeletePhase_empty_kept env req.product_id ⟨db, [], []⟩ hdel
    have heq1x : imageDeletePhase env req.product_id [] []
        (existingImagesOf db req.product_id) ⟨db, [], []⟩ = (st1, none) := heq1
    rw [heq1x]
    dsimp only
    rw [existingImagesToKeep_nil, imageOrderLoop_nil]
    dsimp only
    rw [imageUploadLoop_nil]
    dsimp only
    rw [hkeptd]
    obtain ⟨st2, heq2, hImg2, hProd2⟩ := detailPhase_empty env req.product_id st1 hdeld
    rw [heq2]
    dsimp only
    refine ⟨rfl, ?_⟩
    have : (updateProductScalars st2.db req p.slug).productImages
        = st2.db.productImages := rfl
    rw [this, hImg2, hfe]

/-- C1 witness: a create of "a" with zero image files is rejected with
field errors, and the no-kept-no-new update of product 1 (one image)
completes successfully leaving zero image rows. -/
theorem C1_witness :
    (createAction allOkCreateEnv 7 { simpleCreateReq with images := [] }
        emptyDB).res = .fieldErrors ∧
    ((updateAction allOkUpdEnv 7 baseUpdateReq dbOneImage).res
        = .ok 1 productOne.slug ∧
     (updateAction allOkUpdEnv 7 baseUpdateReq dbOneImage).st.db.productImages.filter
        (fun r => r.product_id == 1) = []) :=
  ⟨(C1_image_minimum.1 allOkCreateEnv 7
      { simpleCreateReq with images := [] } emptyDB rfl).1,
   C1_image_minimum.2.2 allOkUpdEnv 7 baseUpdateReq dbOneImage productOne
      (by decide) (by decide) (by decide) (by decide) rfl rfl rfl rfl rfl rfl⟩

/-- C7: creating two products whose computed slugs coincide succeeds for
the first and fails with the conflict error for the second (for any
otherwise-valid second request); and an update whose computed slug equals
the slug stored on the target row performs no uniqueness lookup at all
(its trace holds no slug select) and never returns the conflict error. -/
theorem C7_slug_uniqueness :
    (∀ (env1 env2 : CreateEnv) (uid1 uid2 : Nat) (req1 req2 : CreateReq)
        (db : DB),
      (createAction env1 uid1 req1 db).res.isOk = true →
      createValid req2 = true →
      chosenSlug req2.slug req2.title = chosenSlug req1.slug req1.title →
      (createAction env2 uid2 req2 (createAction env1 uid1 req1 db).st.db).res
        = .slugConflict) ∧
    (∀ (env : UpdEnv) (uid : Nat) (req : UpdateReq) (db : DB) (p : ProductRow),
      db.products.find? (fun q => q.product_id == req.product_id) = some p →
      chosenSlug req.slug req.title = p.slug →
      (updateAction env uid req db).res ≠ .slugConflict ∧
      noSlugSelect (updateAction env uid req db).st.trace = true) := by
  constructor
  · intro env1 env2 uid1 uid2 req1 req2 db hok hval hsl
    rcases createAction_products env1 uid1 req1 db with hbad | ⟨_, hprod⟩
    · rw [hok] at hbad; cases hbad
    · refine createAction_slugConflict env2 uid2 req2 _ hval
        (createParentRow uid1 req1 db) ?_ ?_
      · rw [hprod]; simp
      · simpa [createParentRow] using hsl.symm
  · intro env uid req db p hfind hs
    unfold updateAction
    dsimp only
    split
    · exact ⟨fun h => ActRes.noConfusion h, rfl⟩
    · split
      · next heq => rw [heq] at hfind; cases hfind
      · next existingProduct heq =>
        rw [heq] at hfind
        injection hfind with hEq
        subst hEq
        split
        · exact ⟨fun h => ActRes.noConfusion h, rfl⟩
        · rw [← hs, slugUniquenessCheck_self]
          dsimp only
          rw [if_neg (by simp)]
          split
          · next e heqf =>
            refine ⟨fun hc => ?_, rfl⟩
            dsimp only at hc
            have := imagesFileCheck_isFileErr _ _ heqf
            rw [hc] at this
            cases this
          · split
            · next e heqf =>
              refine ⟨fun hc => ?_, rfl⟩
              dsimp only at hc
              have := detailImagesFileCheck_isFileErr _ _ heqf
              rw [hc] at this
              cases this
            · split
              · next st2 e heqp =>
                have ht := noSlugSelect_imagePhase env req.product_id
                  req.existing_image_ids req.images
                  (existingImagesOf db req.product_id) ⟨db, [], []⟩ rfl
                rw [heqp] at ht
                exact ⟨fun h => ActRes.noConfusion h, ht⟩
              · next st2 heqp =>
                have ht := noSlugSelect_imagePhase env req.product_id
                  req.existing_image_ids req.images
                  (existingImagesOf db req.product_id) ⟨db, [], []⟩ rfl
                rw [heqp] at ht
                split
                · next st3 e heqd =>
                  have ht2 := noSlugSelect_detailPhase env req.product_id
                    req.existing_detail_ids req.details st2 ht
                  rw [heqd] at ht2
                  exact ⟨fun h => ActRes.noConfusion h, ht2⟩
                · next st3 heqd =>
                  have ht2 := noSlugSelect_detailPhase env req.product_id
                    req.existing_detail_ids req.details st2 ht
                  rw [heqd] at ht2
                  exact ⟨fun h => ActRes.noConfusion h,
                    noSlugSelect_extend _ _ ht2 rfl⟩

/-- C7 witness: two identical creates of the product titled "a" on an
empty store: the second returns the conflict error; and the no-change
update of product 1 neither looks up nor conflicts on its own slug. -/
theorem C7_witness :
    (createAction allOkCreateEnv 7 simpleCreateReq
        (createAction allOkCreateEnv 7 simpleCreateReq emptyDB).st.db).res
      = .slugConflict ∧
    ((updateAction allOkUpdEnv 7 baseUpdateReq dbOneImage).res ≠ .slugConflict ∧
     noSlugSelect (updateAction allOkUpdEnv 7 baseUpdateReq dbOneImage).st.trace
       = true) :=
  ⟨C7_slug_uniqueness.1 allOkCreateEnv allOkCreateEnv 7 7 simpleCreateReq
      simpleCreateReq emptyDB (by decide) (by decide) rfl,
   C7_slug_uniqueness.2 allOkUpdEnv 7 baseUpdateReq dbOneImage productOne
      (by decide) (by decide)⟩

/-- C8: in update-product the parent scalar fields are written last:
every non-success outcome leaves the products table exactly as it was
(so any reconciliation failure returns an error with the scalar fields
unchanged), and a success rewrites precisely the scalar fields of the
target row. -/
theorem C8_scalar_fields_last (env : UpdEnv) (uid : Nat) (req : UpdateReq)
    (db : DB) :
    ((updateAction env uid req db).res.isOk = false →
      (updateAction env uid req db).st.db.products = db.products) ∧
    ((updateAction env uid req db).res.isOk = true →
      (updateAction env uid req db).st.db.products
        = (updateProductScalars db req (chosenSlug req.slug req.title)).products) := by
  refine ⟨fun h => ?_, fun h => ?_⟩ <;> rw [updateAction_products, h] <;> simp

/-- C8 witness: with the image-row delete failing, the no-change update
of product 1 errors and leaves the products table untouched. -/
theorem C8_witness :
    (updateAction imgDeleteFailUpdEnv 7 baseUpdateReq dbOneImage).st.db.products
      = dbOneImage.products :=
  (C8_scalar_fields_last imgDeleteFailUpdEnv 7 baseUpdateReq dbOneImage).1
    (by decide)

/-- C2 amended: create compensates the parent row only on row-insert
failures: when the image-row batch insert or the detail-row batch insert
fails, the just-inserted parent row is deleted before the error returns
(no row with the new id remains); but when an image upload or a detail
image upload fails, only the uploaded files are removed — the parent row
remains in the store. -/
theorem C2_parent_compensation (env : CreateEnv) (uid : Nat) (req : CreateReq)
    (db : DB) :
    ((createAction env uid req db).res = .storeErr .imgInsertFail →
      ∀ p ∈ (createAction env uid req db).st.db.products,
        p.product_id ≠ db.nextProductId) ∧
    ((createAction env uid req db).res = .storeErr .detInsertFail →
      ∀ p ∈ (createAction env uid req db).st.db.products,
        p.product_id ≠ db.nextProductId) ∧
    ((createAction env uid req db).res = .storeErr .imgUploadFail →
      ∃ p ∈ (createAction env uid req db).st.db.products,
        p.product_id = db.nextProductId) ∧
    ((createAction env uid req db).res = .storeErr .detUploadFail →
      ∃ p ∈ (createAction env uid req db).st.db.products,
        p.product_id = db.nextProductId) := by
  unfold createAction
  dsimp only
  split
  · exact ⟨fun h => ActRes.noConfusion h, fun h => ActRes.noConfusion h,
      fun h => ActRes.noConfusion h, fun h => ActRes.noConfusion h⟩
  split
  · exact ⟨fun h => ActRes.noConfusion h, fun h => ActRes.noConfusion h,
      fun h => ActRes.noConfusion h, fun h => ActRes.noConfusion h⟩
  split
  · next e heqf =>
    have hf := imagesFileCheck_isFileErr _ _ heqf
    refine ⟨fun h => ?_, fun h => ?_, fun h => ?_, fun h => ?_⟩ <;>
      (dsimp only at h; rw [h] at hf; cases hf)
  split
  · next e heqf =>
    have hf := detailImagesFileCheck_isFileErr _ _ heqf
    refine ⟨fun h => ?_, fun h => ?_, fun h => ?_, fun h => ?_⟩ <;>
      (dsimp only at h; rw [h] at hf; cases hf)
  split
  · refine ⟨fun h => ?_, fun h => ?_, fun h => ?_, fun h => ?_⟩ <;>
      (dsimp only at h; injection h with h2; exact StoreErr.noConfusion h2)
  split
  · exact ⟨fun h => ActRes.noConfusion h, fun h => ActRes.noConfusion h,
      fun h => ActRes.noConfusion h, fun h => ActRes.noConfusion h⟩
  split
  · next st3 urls e heqL =>
    have he := createImageLoop_err env db.nextProductId req.images 0 [] _ _ _ _ heqL
    subst he
    have hdb : st3.db.products = db.products ++ [createParentRow uid req db] := by
      have h := congrArg (fun x => x.1.db) heqL
      dsimp only at h
      rw [createImageLoop_db] at h
      exact congrArg DB.products h.symm
    refine ⟨fun h => ?_, fun h => ?_, fun h => ?_, fun h => ?_⟩ <;> dsimp only at h ⊢
    · injection h with h2; exact StoreErr.noConfusion h2
    · injection h with h2; exact StoreErr.noConfusion h2
    · exact ⟨createParentRow uid req db, by rw [hdb]; simp, rfl⟩
    · injection h with h2; exact StoreErr.noConfusion h2
  next st3 urls heqL =>
  have hdb3 : st3.db.products = db.products ++ [createParentRow uid req db] := by
    have h := congrArg (fun x => x.1.db) heqL
    dsimp only at h
    rw [createImageLoop_db] at h
    exact congrArg DB.products h.symm
  split
  · next st4 e heqA =>
    -- the batch image insert failed: the parent row was deleted
    have hA : e = .imgInsertFail ∧
        st4.db.products = (deleteProductRow (cleanupUploads st3).db
          db.nextProductId).products := by
      split at heqA
      · cases heqA
      · split at heqA
        · cases heqA
        · cases heqA; exact ⟨rfl, rfl⟩
    obtain ⟨he, hprod⟩ := hA
    subst he
    refine ⟨fun h => ?_, fun h => ?_, fun h => ?_, fun h => ?_⟩ <;> dsimp only at h ⊢
    · intro p hp
      rw [hprod] at hp
      unfold deleteProductRow at hp
      dsimp only at hp
      have := List.of_mem_filter hp
      simpa using this
    · injection h with h2; exact StoreErr.noConfusion h2
    · injection h with h2; exact StoreErr.noConfusion h2
    · injection h with h2; exact StoreErr.noConfusion h2
  next st4 heqA =>
  have hA4 : st4.db.products = st3.db.products := by
    split at heqA
    · cases heqA; rfl
    · split at heqA
      · cases heqA; rfl
      · cases heqA
  split
  · exact ⟨fun h => ActRes.noConfusion h, fun h => ActRes.noConfusion h,
      fun h => ActRes.noConfusion h, fun h => ActRes.noConfusion h⟩
  split
  · next st5 recs e heqD =>
    have he := createDetailLoop_err env db.nextProductId req.details 0 [] _ _ _ _ heqD
    subst he
    have hdb5 : st5.db.products = st3.db.products := by
      have h := congrArg (fun x => x.1.db) heqD
      dsimp only at h
      rw [createDetailLoop_db] at h
      rw [h.symm, hA4]
    refine ⟨fun h => ?_, fun h => ?_, fun h => ?_, fun h => ?_⟩ <;> dsimp only at h ⊢
    · injection h with h2; exact StoreErr.noConfusion h2
    · injection h with h2; exact StoreErr.noConfusion h2
    · injection h with h2; exact StoreErr.noConfusion h2
    · exact ⟨createParentRow uid req db, by rw [hdb5, hdb3]; simp, rfl⟩
  next st5 recs heqD =>
  have hdb5 : st5.db.products = st3.db.products := by
    have h := congrArg (fun x => x.1.db) heqD
    dsimp only at h
    rw [createDetailLoop_db] at h
    rw [h.symm, hA4]
  split
  · exact ⟨fun h => ActRes.noConfusion h, fun h => ActRes.noConfusion h,
      fun h => ActRes.noConfusion h, fun h => ActRes.noConfusion h⟩
  · -- the batch detail insert failed: the parent row was deleted
    refine ⟨fun h => ?_, fun h => ?_, fun h => ?_, fun h => ?_⟩ <;> dsimp only at h ⊢
    · injection h with h2; exact StoreErr.noConfusion h2
    · intro p hp
      unfold deleteProductRow at hp
      dsimp only at hp
      have := List.of_mem_filter hp
      simpa using this
    · injection h with h2; exact StoreErr.noConfusion h2
    · injection h with h2; exact StoreErr.noConfusion h2

/-- C2 amended witness: with the image-row insert failing on the create
of the product titled "a", no row with the new id 1 remains. -/
theorem C2_witness :
    ∀ p ∈ (createAction imgInsertFailCreateEnv 7 simpleCreateReq
        emptyDB).st.db.products, p.product_id ≠ emptyDB.nextProductId :=
  (C2_parent_compensation imgInsertFailCreateEnv 7 simpleCreateReq emptyDB).1
    (by decide)

/-- C1 counterexample: an update request for product 1 (owned by the
caller, holding one image) that keeps no existing image id and uploads no
new file is not rejected: it succeeds and leaves the product with zero
images, deleting the existing image row. -/
theorem C1_counterexample :
    (updateAction allOkUpdEnv 7 baseUpdateReq dbOneImage).res = .ok 1 [116] ∧
    (updateAction allOkUpdEnv 7 baseUpdateReq dbOneImage).st.db.productImages = [] := by
  decide

/-- C2 counterexample: when the first image upload of create fails, the
action returns the upload error but the just-inserted parent row
(product 1) is left in the store — it is not deleted. -/
theorem C2_counterexample :
    (createAction uploadFailCreateEnv 7 simpleCreateReq emptyDB).res
      = .storeErr .imgUploadFail ∧
    (createAction uploadFailCreateEnv 7 simpleCreateReq emptyDB).st.db.products.map
      (·.product_id) = [1] := by
  decide

/-- C3 counterexample: a banner update issued by principal 1 against
banner 5 owned by principal 2 does not fail with 403 Forbidden: it
succeeds and mutates the row (the active flag flips to false). -/
theorem C3_counterexample :
    (bannerUpdateAction okBannerEnv 1 bannerReqFive dbOneBanner).res = .redirectOk ∧
    (bannerUpdateAction okBannerEnv 1 bannerReqFive dbOneBanner).st.db.banners.map
      (·.is_active) = [false] := by
  decide

/-- C4 counterexample: an update that keeps detail 20 of product 1
(kept-id list [20], one detail entry carrying detail_id 20) succeeds, but
the kept detail does not keep its row id: row 20 is deleted and the
surviving detail row has the fresh id 21. -/
theorem C4_counterexample :
    (updateAction allOkUpdEnv 7
        { baseUpdateReq with details := [⟨[97], [98], none, some 20⟩],
                             existing_detail_ids := [20] } dbOneDetail).res
      = .ok 1 [116] ∧
    (updateAction allOkUpdEnv 7
        { baseUpdateReq with details := [⟨[97], [98], none, some 20⟩],
                             existing_detail_ids := [20] } dbOneDetail).st.db.productDetails.map
      (·.detail_id) = [21] := by
  decide

/-- C5 counterexample: an update whose kept-id list names image 10 twice
succeeds, and the single final image of product 1 carries order 1 — the
order values are not the set {0}: the order loop assigns each positional
index in turn and a duplicated id keeps only the last one. -/
theorem C5_counterexample :
    (updateAction allOkUpdEnv 7
        { baseUpdateReq with existing_image_ids := [10, 10] } dbOneImage).res
      = .ok 1 [116] ∧
    ¬ List.Perm
        ((updateAction allOkUpdEnv 7
            { baseUpdateReq with existing_image_ids := [10, 10] } dbOneImage).st.db.productImages.map
          (·.image_order))
        (List.range
          (updateAction allOkUpdEnv 7
              { baseUpdateReq with existing_image_ids := [10, 10] } dbOneImage).st.db.productImages.length) := by
  decide

/-- C6 counterexample: creating a product titled 나무 상자 with
price 10000, working time 60, one image file and no supplied slug
succeeds, but the generated slug is the empty string (every code point of
the title is outside [a-z0-9], so the whole title collapses to one hyphen
which is then trimmed away) — not a non-empty hyphenated slug. -/
theorem C6_counterexample :
    (createAction allOkCreateEnv 7 koreanCreateReq emptyDB).res = .ok 1 [] ∧
    generateSlug koreanTitle = [] := by
  decide

/-- C3 amended: the product-scoped mutations (update, delete, toggle
sold-out) load the target row and fail with 404 when it is missing and
403 when its owner differs from the caller, leaving the store unchanged
in both cases; the banner mutations (update, delete) only fail with 404
when the row is missing — they compare no owner at all, so their outcome
is identical for every calling principal. -/
theorem C3_ownership_checks (env : UpdEnv) (denv : DelEnv) (benv : BannerEnv)
    (uid pid bid : Nat) (req : UpdateReq) (breq : BannerUpdateReq) (db : DB) :
    (updateValid req = true →
      db.products.find? (fun p => p.product_id == req.product_id) = none →
      (updateAction env uid req db).res = .notFound ∧
      (updateAction env uid req db).st.db = db) ∧
    (∀ p, updateValid req = true →
      db.products.find? (fun q => q.product_id == req.product_id) = some p →
      p.created_by ≠ uid →
      (updateAction env uid req db).res = .forbidden ∧
      (updateAction env uid req db).st.db = db) ∧
    (0 < pid →
      db.products.find? (fun p => p.product_id == pid) = none →
      (deleteProductAction denv uid pid db).res = .notFound ∧
      (deleteProductAction denv uid pid db).st.db = db) ∧
    (∀ p, 0 < pid →
      db.products.find? (fun q => q.product_id == pid) = some p →
      p.created_by ≠ uid →
      (deleteProductAction denv uid pid db).res = .forbidden ∧
      (deleteProductAction denv uid pid db).st.db = db) ∧
    (0 < pid →
      db.products.find? (fun p => p.product_id == pid) = none →
      (toggleSoldOutAction uid pid db).res = .notFound ∧
      (toggleSoldOutAction uid pid db).st.db = db) ∧
    (∀ p, 0 < pid →
      db.products.find? (fun q => q.product_id == pid) = some p →
      p.created_by ≠ uid →
      (toggleSoldOutAction uid pid db).res = .forbidden ∧
      (toggleSoldOutAction uid pid db).st.db = db) ∧
    (0 < breq.banner_id →
      db.banners.find? (fun b => b.banner_id == breq.banner_id) = none →
      (bannerUpdateAction benv uid breq db).res = .notFound ∧
      (bannerUpdateAction benv uid breq db).st.db = db) ∧
    (0 < bid →
      db.banners.find? (fun b => b.banner_id == bid) = none →
      (bannerDeleteAction benv uid bid db).res = .notFound ∧
      (bannerDeleteAction benv uid bid db).st.db = db) ∧
    (∀ u1 u2, bannerUpdateAction benv u1 breq db
      = bannerUpdateAction benv u2 breq db) ∧
    (∀ u1 u2, bannerDeleteAction benv u1 bid db
      = bannerDeleteAction benv u2 bid db) := by
  refine ⟨?_, ?_, ?_, ?_, ?_, ?_, ?_, ?_, ?_, ?_⟩
  · intro hv hfind
    unfold updateAction
    dsimp only
    rw [if_neg (not_not_intro hv), hfind]
    exact ⟨rfl, rfl⟩
  · intro p hv hfind hown
    unfold updateAction
    dsimp only
    rw [if_neg (not_not_intro hv), hfind]
    dsimp only
    rw [if_pos hown]
    exact ⟨rfl, rfl⟩
  · intro hpos hfind
    unfold deleteProductAction
    dsimp only
    rw [if_neg (not_not_intro (decide_eq_true hpos)), hfind]
    exact ⟨rfl, rfl⟩
  · intro p hpos hfind hown
    unfold deleteProductAction
    dsimp only
    rw [if_neg (not_not_intro (decide_eq_true hpos)), hfind]
    dsimp only
    rw [if_pos hown]
    exact ⟨rfl, rfl⟩
  · intro hpos hfind
    unfold toggleSoldOutAction
    dsimp only
    rw [if_neg (not_not_intro (decide_eq_true hpos)), hfind]
    exact ⟨rfl, rfl⟩
  · intro p hpos hfind hown
    unfold toggleSoldOutAction
    dsimp only
    rw [if_neg (not_not_intro (decide_eq_true hpos)), hfind]
    dsimp only
    rw [if_pos hown]
    exact ⟨rfl, rfl⟩
  · intro hpos hfind
    unfold bannerUpdateAction
    dsimp only
    rw [if_neg (not_not_intro (decide_eq_true hpos)), hfind]
    exact ⟨rfl, rfl⟩
  · intro hpos hfind
    unfold bannerDeleteAction
    dsimp only
    rw [if_neg (not_not_intro (decide_eq_true hpos)), hfind]
    exact ⟨rfl, rfl⟩
  · intro u1 u2
    rfl
  · intro u1 u2
    rfl

/-- Witness for C3: principal 8 cannot update product 1 owned by
principal 7 (403, store untouched), while the banner update runs
identically for principals 1 and 2. -/
theorem C3_witness :
    productOne.created_by ≠ 8 ∧
    ((updateAction allOkUpdEnv 8 baseUpdateReq dbOneImage).res = .forbidden ∧
     (updateAction allOkUpdEnv 8 baseUpdateReq dbOneImage).st.db = dbOneImage) ∧
    bannerUpdateAction okBannerEnv 1 bannerReqFive dbOneBanner
      = bannerUpdateAction okBannerEnv 2 bannerReqFive dbOneBanner :=
  ⟨by decide,
   (C3_ownership_checks allOkUpdEnv ⟨[]⟩ okBannerEnv 8 1 5 baseUpdateReq
       bannerReqFive dbOneImage).2.1 productOne (by decide) (by decide) (by decide),
   (C3_ownership_checks allOkUpdEnv ⟨[]⟩ okBannerEnv 8 1 5 baseUpdateReq
       bannerReqFive dbOneBanner).2.2.2.2.2.2.2.2.1 1 2⟩

/-- C4 amended: during a successful update of a well-formed store with a
duplicate-free kept-image-id list, every matched kept image keeps its row
id and has its order field set in place to its positional index in the
kept list; but kept details do not keep their row ids — when detail
entries are submitted, every surviving detail row of the product carries
a freshly assigned id different from every detail id the product had
before (the whole collection is deleted and re-inserted). -/
theorem C4_kept_children (env : UpdEnv) (uid : Nat) (req : UpdateReq) (db : DB)
    (hwf : db.wfb = true)
    (hnodup : req.existing_image_ids.Nodup)
    (hok : (updateAction env uid req db).res.isOk = true) :
    (∀ q i, (matchedKeptIds db req.product_id req.existing_image_ids)[q]?
        = some i →
      ∃ r ∈ imagesOf (updateAction env uid req db).st.db req.product_id,
        r.image_id = i ∧ r.image_order = q) ∧
    (req.details ≠ [] →
      ∀ r ∈ detailsOf (updateAction env uid req db).st.db req.product_id,
        ∀ d ∈ detailsOf db req.product_id, r.detail_id ≠ d.detail_id) := by
  rcases updateAction_ok_phases env uid req db with
    hbad | ⟨st1, st2, st3, h1db, hImg, hDet, hfin⟩
  · rw [hok] at hbad; cases hbad
  have hfacts := wfb_facts db hwf
  have hnd : (st1.db.productImages.map (·.image_id)).Nodup := by
    rw [h1db]; exact hfacts.1
  have hex : existingImagesOf db req.product_id
      = existingImagesOf st1.db req.product_id := by rw [h1db]
  obtain ⟨hperm, hpos, hdfr⟩ := imagePhase_ok_images env req.product_id
    req.existing_image_ids req.images (existingImagesOf db req.product_id)
    st1 st2 hex hnd hnodup hImg
  have hEqM : matchedKeptIds st1.db req.product_id req.existing_image_ids
      = matchedKeptIds db req.product_id req.existing_image_ids := by
    rw [h1db]
  have hImgs3 : st3.db.productImages = st2.db.productImages := by
    rcases hdets : req.details with _ | ⟨d, ds⟩
    · rw [hdets] at hDet
      exact (detailPhase_ok_empty env req.product_id req.existing_detail_ids
        st2 st3 hDet).2.1
    · rw [hdets] at hDet
      exact (detailPhase_ok_nonempty env req.product_id req.existing_detail_ids
        (d :: ds) st2 st3 (by simp) hDet).2.2.1
  have hImgsFin : imagesOf (updateAction env uid req db).st.db req.product_id
      = imagesOf st2.db req.product_id := by
    rw [hfin]
    unfold imagesOf updateProductScalars
    dsimp only
    rw [hImgs3]
  refine ⟨?_, ?_⟩
  · intro q i hqi
    have hqi2 : (matchedKeptIds st1.db req.product_id req.existing_image_ids)[q]?
        = some i := by
      rw [hEqM]; exact hqi
    obtain ⟨r, hrmem, hrid, hrord⟩ := hpos q i hqi2
    refine ⟨r, ?_, hrid, hrord⟩
    rw [hImgsFin]
    exact hrmem
  · intro hdne r hr d hd
    have hne : 0 < req.details.length := List.length_pos.mpr hdne
    obtain ⟨hdord, hids, hifr2, _⟩ := detailPhase_ok_nonempty env req.product_id
      req.existing_detail_ids req.details st2 st3 hne hDet
    have hDetsFin : detailsOf (updateAction env uid req db).st.db req.product_id
        = detailsOf st3.db req.product_id := by
      rw [hfin]
      unfold detailsOf updateProductScalars
      dsimp only
    rw [hDetsFin] at hr
    have hidr : st2.db.nextDetailId ≤ r.detail_id := hids r hr
    have hc2 : st2.db.nextDetailId = st1.db.nextDetailId := by
      have h := imagePhase_nextDetailId env req.product_id req.existing_image_ids
        req.images (existingImagesOf db req.product_id) st1
      rw [hImg] at h
      exact h
    have hcdb : st1.db.nextDetailId = db.nextDetailId := by rw [h1db]
    have hdlt : d.detail_id < db.nextDetailId := by
      refine hfacts.2.2.2 d ?_
      unfold detailsOf at hd
      exact (List.mem_filter.mp hd).1
    intro hcontra
    rw [hcontra] at hidr
    omega

/-- Witness for C4: updating product 1 (store with image 10 and detail
20) keeping image 10 and re-submitting detail 20 succeeds; image 10
survives with order 0, while no surviving detail row carries the old id
20. -/
theorem C4_witness :
    dbFull.wfb = true ∧ ([10] : List Nat).Nodup ∧
    (updateAction allOkUpdEnv 7 keepTenDetailReq dbFull).res.isOk = true ∧
    (∃ r ∈ imagesOf (updateAction allOkUpdEnv 7 keepTenDetailReq dbFull).st.db 1,
      r.image_id = 10 ∧ r.image_order = 0) ∧
    (∀ r ∈ detailsOf (updateAction allOkUpdEnv 7 keepTenDetailReq dbFull).st.db 1,
      ∀ d ∈ detailsOf dbFull 1, r.detail_id ≠ d.detail_id) :=
  ⟨by decide, by decide, by decide,
   (C4_kept_children allOkUpdEnv 7 keepTenDetailReq dbFull (by decide) (by decide)
       (by decide)).1 0 10 (by decide),
   (C4_kept_children allOkUpdEnv 7 keepTenDetailReq dbFull (by decide) (by decide)
       (by decide)).2 (by decide)⟩

/-- C5 amended: after a successful create, the image orders and detail
orders of the new product are exactly 0..n-1 in the caller's sequence
(given a well-formed store); after a successful update, given additionally
a duplicate-free kept-image-id list (a duplicated kept id breaks the
invariant) the image orders of the product form the set 0..n-1 with each
matched kept id placed at its caller position, and the detail orders are
exactly 0..n-1 in entry order (given they were dense before, for the
nothing-submitted case). -/
theorem C5_order_density (envC : CreateEnv) (envU : UpdEnv) (uid : Nat)
    (reqC : CreateReq) (reqU : UpdateReq) (dbC dbU : DB)
    (hwfC : dbC.wfb = true)
    (hwfU : dbU.wfb = true)
    (hnodup : reqU.existing_image_ids.Nodup)
    (hpre : (detailsOf dbU reqU.product_id).map (·.detail_order)
        = List.range (detailsOf dbU reqU.product_id).length) :
    ((createAction envC uid reqC dbC).res.isOk = true →
      (imagesOf (createAction envC uid reqC dbC).st.db dbC.nextProductId).map
          (·.image_order)
        = List.range
            (imagesOf (createAction envC uid reqC dbC).st.db dbC.nextProductId).length ∧
      (detailsOf (createAction envC uid reqC dbC).st.db dbC.nextProductId).map
          (·.detail_order)
        = List.range
            (detailsOf (createAction envC uid reqC dbC).st.db dbC.nextProductId).length) ∧
    ((updateAction envU uid reqU dbU).res.isOk = true →
      List.Perm
        ((imagesOf (updateAction envU uid reqU dbU).st.db reqU.product_id).map
          (·.image_order))
        (List.range
          (imagesOf (updateAction envU uid reqU dbU).st.db reqU.product_id).length) ∧
      (∀ q i, (matchedKeptIds dbU reqU.product_id reqU.existing_image_ids)[q]?
          = some i →
        ∃ r ∈ imagesOf (updateAction envU uid reqU dbU).st.db reqU.product_id,
          r.image_id = i ∧ r.image_order = q) ∧
      (detailsOf (updateAction envU uid reqU dbU).st.db reqU.product_id).map
          (·.detail_order)
        = List.range
            (detailsOf (updateAction envU uid reqU dbU).st.db reqU.product_id).length) := by
  constructor
  · intro hok
    have hfacts := wfb_facts dbC hwfC
    rcases createAction_children envC uid reqC dbC with
      hbad | ⟨imgRecs, detRecs, h1, h2, h3, h4, h5, h6⟩
    · rw [hok] at hbad; cases hbad
    have himg : imagesOf (createAction envC uid reqC dbC).st.db dbC.nextProductId
        = imgRecs := by
      unfold imagesOf
      rw [h1, List.filter_append]
      rw [List.filter_eq_nil_iff.mpr (by
        intro r hr
        simp [hfacts.2.1 r hr])]
      rw [List.filter_eq_self.mpr (by
        intro r hr
        simp [h3 r hr]), List.nil_append]
    have hdet : detailsOf (createAction envC uid reqC dbC).st.db dbC.nextProductId
        = detRecs := by
      unfold detailsOf
      rw [h4, List.filter_append]
      rw [List.filter_eq_nil_iff.mpr (by
        intro r hr
        simp [hfacts.2.2.1 r hr])]
      rw [List.filter_eq_self.mpr (by
        intro r hr
        simp [h6 r hr]), List.nil_append]
    constructor
    · rw [himg, h2]
      have hlen : imgRecs.length = reqC.images.length := by
        have := congrArg List.length h2
        simpa using this
      rw [hlen]
    · rw [hdet, h5]
      have hlen : detRecs.length = reqC.details.length := by
        have := congrArg List.length h5
        simpa using this
      rw [hlen]
  · intro hok
    rcases updateAction_ok_phases envU uid reqU dbU with
      hbad | ⟨st1, st2, st3, h1db, hImg, hDet, hfin⟩
    · rw [hok] at hbad; cases hbad
    have hfacts := wfb_facts dbU hwfU
    have hnd : (st1.db.productImages.map (·.image_id)).Nodup := by
      rw [h1db]; exact hfacts.1
    have hex : existingImagesOf dbU reqU.product_id
        = existingImagesOf st1.db reqU.product_id := by rw [h1db]
    obtain ⟨hperm, hpos, hdfr⟩ := imagePhase_ok_images envU reqU.product_id
      reqU.existing_image_ids reqU.images (existingImagesOf dbU reqU.product_id)
      st1 st2 hex hnd hnodup hImg
    have hEqM : matchedKeptIds st1.db reqU.product_id reqU.existing_image_ids
        = matchedKeptIds dbU reqU.product_id reqU.existing_image_ids := by
      rw [h1db]
    have hImgs3 : st3.db.productImages = st2.db.productImages := by
      rcases hdets : reqU.details with _ | ⟨d, ds⟩
      · rw [hdets] at hDet
        exact (detailPhase_ok_empty envU reqU.product_id reqU.existing_detail_ids
          st2 st3 hDet).2.1
      · rw [hdets] at hDet
        exact (detailPhase_ok_nonempty envU reqU.product_id reqU.existing_detail_ids
          (d :: ds) st2 st3 (by simp) hDet).2.2.1
    have hImgsFin : imagesOf (updateAction envU uid reqU dbU).st.db reqU.product_id
        = imagesOf st2.db reqU.product_id := by
      rw [hfin]
      unfold imagesOf updateProductScalars
      dsimp only
      rw [hImgs3]
    have hDetsFin : detailsOf (updateAction envU uid reqU dbU).st.db reqU.product_id
        = detailsOf st3.db reqU.product_id := by
      rw [hfin]
      unfold detailsOf updateProductScalars
      dsimp only
    refine ⟨?_, ?_, ?_⟩
    · rw [hImgsFin]
      have hlen : (imagesOf st2.db reqU.product_id).length
          = (matchedKeptIds st1.db reqU.product_id reqU.existing_image_ids).length
            + reqU.images.length := by
        have := hperm.length_eq
        simpa using this
      rw [hlen]
      exact hperm
    · intro q i hqi
      have hqi2 : (matchedKeptIds st1.db reqU.product_id reqU.existing_image_ids)[q]?
          = some i := by
        rw [hEqM]; exact hqi
      obtain ⟨r, hrmem, hrid, hrord⟩ := hpos q i hqi2
      refine ⟨r, ?_, hrid, hrord⟩
      rw [hImgsFin]
      exact hrmem
    · rw [hDetsFin]
      rcases hdets : reqU.details with _ | ⟨d, ds⟩
      · rw [hdets] at hDet
        rcases (detailPhase_ok_empty envU reqU.product_id reqU.existing_detail_ids
            st2 st3 hDet).1 with hsame | hnil
        · rw [hsame]
          have hd2 : detailsOf st2.db reqU.product_id
              = detailsOf dbU reqU.product_id := by
            unfold detailsOf
            rw [hdfr, h1db]
          rw [hd2]
          exact hpre
        · rw [hnil]
          rfl
      · rw [hdets] at hDet
        have hdord := (detailPhase_ok_nonempty envU reqU.product_id
          reqU.existing_detail_ids (d :: ds) st2 st3 (by simp) hDet).1
        rw [hdord]
        have hlen : (detailsOf st3.db reqU.product_id).length = (d :: ds).length := by
          have := congrArg List.length hdord
          simpa using this
        rw [hlen]

/-- Witness for C5: updating product 1 (store with image 10) keeping
image 10 succeeds and its image orders form exactly the range. -/
theorem C5_witness :
    emptyDB.wfb = true ∧ dbOneImage.wfb = true ∧ ([10] : List Nat).Nodup ∧
    (detailsOf dbOneImage 1).map (·.detail_order)
      = List.range (detailsOf dbOneImage 1).length ∧
    List.Perm
      ((imagesOf (updateAction allOkUpdEnv 7 keepTenReq dbOneImage).st.db 1).map
        (·.image_order))
      (List.range
        (imagesOf (updateAction allOkUpdEnv 7 keepTenReq dbOneImage).st.db 1).length) :=
  ⟨by decide, by decide, by decide, by decide,
   ((C5_order_density allOkCreateEnv allOkUpdEnv 7 simpleCreateReq keepTenReq
       emptyDB dbOneImage (by decide) (by decide) (by decide) (by decide)).2
     (by decide)).1⟩

/-- Every character the collapse step emits is a lower-case alphanumeric
or the hyphen. -/
theorem collapseNonAlnum_mem :
    ∀ (s : Str) (b : Bool) (c : Nat), c ∈ collapseNonAlnum b s →
      isLowerAlnum c = true ∨ c = hyphen := by
  intro s
  induction s with
  | nil => intro b c hc; cases hc
  | cons a rest ih =>
    intro b c hc
    unfold collapseNonAlnum at hc
    split at hc
    · next ha =>
      rcases List.mem_cons.mp hc with hc | hc
      · exact Or.inl (hc ▸ ha)
      · exact ih false c hc
    · split at hc
      · exact ih true c hc
      · rcases List.mem_cons.mp hc with hc | hc
        · exact Or.inr hc
        · exact ih true c hc

/-- The collapse step never emits two hyphens in a row: with the
in-a-run flag set its output never starts with a hyphen, and with either
flag its output has no adjacent hyphens. -/
theorem collapseNonAlnum_chain :
    ∀ s : Str,
      (collapseNonAlnum true s).head? ≠ some hyphen ∧
      ∀ b, List.Chain' (fun x y => ¬(x = hyphen ∧ y = hyphen))
        (collapseNonAlnum b s) := by
  intro s
  induction s with
  | nil =>
    refine ⟨?_, ?_⟩
    · intro h
      cases h
    · intro b
      show List.Chain' _ ([] : Str)
      simp
  | cons a rest ih =>
    obtain ⟨ih1, ih2⟩ := ih
    by_cases ha : isLowerAlnum a = true
    · constructor
      · show (collapseNonAlnum true (a :: rest)).head? ≠ some hyphen
        unfold collapseNonAlnum
        rw [if_pos ha, List.head?_cons]
        intro hcontra
        rw [Option.some.injEq] at hcontra
        rw [hcontra] at ha
        exact absurd ha (by decide)
      · intro b
        unfold collapseNonAlnum
        rw [if_pos ha, List.chain'_cons']
        refine ⟨?_, ih2 false⟩
        intro y _ hcontra
        rw [hcontra.1] at ha
        exact absurd ha (by decide)
    · constructor
      · show (collapseNonAlnum true (a :: rest)).head? ≠ some hyphen
        unfold collapseNonAlnum
        rw [if_neg ha, if_pos rfl]
        exact ih1
      · intro b
        unfold collapseNonAlnum
        rw [if_neg ha]
        cases b with
        | true =>
          rw [if_pos rfl]
          exact ih2 true
        | false =>
          rw [if_neg (by simp), List.chain'_cons']
          refine ⟨?_, ih2 true⟩
          intro y hy hcontra
          rw [hcontra.2] at hy
          exact ih1 (Option.mem_def.mp hy)

/-- Dropping leading hyphens leaves no leading hyphen. -/
theorem dropWhile_hyphen_head :
    ∀ l : Str, (l.dropWhile (· = hyphen)).head? ≠ some hyphen := by
  intro l
  induction l with
  | nil => intro h; cases h
  | cons a rest ih =>
    rw [List.dropWhile_cons]
    split
    · exact ih
    · next hne =>
      rw [List.head?_cons]
      intro hcontra
      rw [Option.some.injEq] at hcontra
      exact hne (decide_eq_true hcontra)

/-- Dropping leading elements preserves the last element (or empties the
list). -/
theorem dropWhile_hyphen_getLast :
    ∀ l : Str, (l.dropWhile (· = hyphen)).getLast? = none ∨
      (l.dropWhile (· = hyphen)).getLast? = l.getLast? := by
  intro l
  induction l with
  | nil => exact Or.inl rfl
  | cons a rest ih =>
    rw [List.dropWhile_cons]
    split
    · cases rest with
      | nil => exact Or.inl rfl
      | cons b bs =>
        rcases ih with h | h
        · exact Or.inl h
        · right
          rw [h]
          exact List.getLast?_cons_cons.symm
    · exact Or.inr rfl

/-- The trimmed string neither starts nor ends with a hyphen. -/
theorem trimHyphens_boundary (s : Str) :
    (trimHyphens s).head? ≠ some hyphen ∧
    (trimHyphens s).getLast? ≠ some hyphen := by
  unfold trimHyphens
  constructor
  · rw [List.head?_reverse]
    rcases dropWhile_hyphen_getLast ((s.dropWhile (· = hyphen)).reverse) with h | h
    · rw [h]; simp
    · rw [h, List.getLast?_reverse]
      exact dropWhile_hyphen_head s
  · rw [List.getLast?_reverse]
    exact dropWhile_hyphen_head _

/-- No-adjacent-hyphens survives the boundary trim. -/
theorem trimHyphens_chain (s : Str)
    (h : List.Chain' (fun x y => ¬(x = hyphen ∧ y = hyphen)) s) :
    List.Chain' (fun x y => ¬(x = hyphen ∧ y = hyphen)) (trimHyphens s) := by
  unfold trimHyphens
  have h1 : List.Chain' (fun x y => ¬(x = hyphen ∧ y = hyphen))
      (s.dropWhile (· = hyphen)) :=
    List.Chain'.suffix h (List.dropWhile_suffix _)
  have h2 : List.Chain' (fun x y => ¬(x = hyphen ∧ y = hyphen))
      ((s.dropWhile (· = hyphen)).reverse) := by
    rw [List.chain'_reverse]
    exact List.Chain'.imp (fun a b hab hba => hab ⟨hba.2, hba.1⟩) h1
  have h3 : List.Chain' (fun x y => ¬(x = hyphen ∧ y = hyphen))
      (((s.dropWhile (· = hyphen)).reverse).dropWhile (· = hyphen)) :=
    List.Chain'.suffix h2 (List.dropWhile_suffix _)
  rw [List.chain'_reverse]
  exact List.Chain'.imp (fun a b hab hba => hab ⟨hba.2, hba.1⟩) h3

/-- C6 amended: the derived slug is lower-cased, diacritic-stripped, with
non-alphanumeric runs collapsed to single hyphens and boundary hyphens
trimmed — every slug character is a lower-case alphanumeric or a hyphen,
no two hyphens are adjacent, and the slug neither starts nor ends with a
hyphen ("Hello World!" becomes "hello-world"); but for the all-Korean
title 나무 상자 every code point collapses away, the generated slug is
the empty string, and the create of the example scenario succeeds with
that empty slug rather than a non-empty hyphenated one. -/
theorem C6_slug_shape :
    (∀ title : Str,
      (∀ c ∈ generateSlug title, isLowerAlnum c = true ∨ c = hyphen) ∧
      List.Chain' (fun x y => ¬(x = hyphen ∧ y = hyphen)) (generateSlug title) ∧
      (generateSlug title).head? ≠ some hyphen ∧
      (generateSlug title).getLast? ≠ some hyphen) ∧
    generateSlug [72, 101, 108, 108, 111, 32, 87, 111, 114, 108, 100, 33]
      = [104, 101, 108, 108, 111, 45, 119, 111, 114, 108, 100] ∧
    generateSlug koreanTitle = [] ∧
    (createAction allOkCreateEnv 7 koreanCreateReq emptyDB).res = .ok 1 [] := by
  refine ⟨?_, by decide, by decide, by decide⟩
  intro title
  have hch := (collapseNonAlnum_chain
    ((nfd (title.map jsToLower)).filter (fun c => !isCombining c))).2 false
  refine ⟨?_, trimHyphens_chain _ hch, (trimHyphens_boundary _).1,
    (trimHyphens_boundary _).2⟩
  intro c hc
  have hc2 : c ∈ collapseNonAlnum false
      ((nfd (title.map jsToLower)).filter (fun c => !isCombining c)) := by
    unfold generateSlug trimHyphens at hc
    rw [List.mem_reverse] at hc
    have hc3 := (List.dropWhile_suffix _).subset hc
    rw [List.mem_reverse] at hc3
    exact (List.dropWhile_suffix _).subset hc3
  exact collapseNonAlnum_mem _ false c hc2

/-- Witness for C6: the first character of the slug of "Hello World!" is
in the allowed class. -/
theorem C6_witness :
    isLowerAlnum 104 = true ∨ 104 = hyphen :=
  (C6_slug_shape.1 [72, 101, 108, 108, 111, 32, 87, 111, 114, 108, 100, 33]).1
    104 (by decide)

/-- C9: for an image reconciliation in which every existing image of the
product is kept (its id appears in the kept list) and no new files are
supplied, the phase issues no storage upload at all — the only events it
appends to the trace are image-order field updates. -/
theorem C9_no_reupload (env : UpdEnv) (pid : Nat) (ks : List Nat)
    (st st' : St) (e : Option StoreErr)
    (hkeep : ∀ r ∈ existingImagesOf st.db pid, r.image_id ∈ ks)
    (heq : imagePhase env pid ks [] (existingImagesOf st.db pid) st = (st', e)) :
    ∃ evs, st'.trace = st.trace ++ evs ∧
      ∀ ev ∈ evs, ∃ iid ord, ev = Ev.imgOrderUpdate iid ord := by
  have hdel : (existingImagesOf st.db pid).filter
      (fun img => !ks.contains img.image_id) = [] := by
    rw [List.filter_eq_nil_iff]
    intro r hr hcontra
    rw [Bool.not_eq_true', natList_contains_false_iff] at hcontra
    exact hcontra (hkeep r hr)
  have hdp : imageDeletePhase env pid ks [] (existingImagesOf st.db pid) st
      = ({ st with trace := st.trace ++ imageStorageRemoves [] }, none) := by
    unfold imageDeletePhase
    dsimp only
    rw [hdel]
    rw [if_neg (by simp), if_neg (by simp)]
  unfold imagePhase at heq
  rw [hdp] at heq
  dsimp only at heq
  rcases horder : imageOrderLoop env 0
      (existingImagesToKeep (existingImagesOf st.db pid) ks)
      { st with trace := st.trace ++ imageStorageRemoves [] } with ⟨st2, e2⟩
  rw [horder] at heq
  obtain ⟨evs2, hevs1, hevs2⟩ := imageOrderLoop_trace env
    (existingImagesToKeep (existingImagesOf st.db pid) ks) 0
    { st with trace := st.trace ++ imageStorageRemoves [] }
  rw [horder] at hevs1
  cases e2 with
  | some e3 =>
    dsimp only at heq
    cases heq
    refine ⟨evs2, ?_, hevs2⟩
    rw [hevs1]
    simp [imageStorageRemoves]
  | none =>
    dsimp only at heq
    rw [imageUploadLoop_nil] at heq
    cases heq
    refine ⟨evs2, ?_, hevs2⟩
    rw [hevs1]
    simp [imageStorageRemoves]

/-- Witness for C9: reconciling product 1 keeping its only image 10 with
no new files appends only the order update. -/
theorem C9_witness :
    (∀ r ∈ existingImagesOf dbOneImage 1, r.image_id ∈ ([10] : List Nat)) ∧
    ∃ evs, (St.mk dbOneImage [Ev.imgOrderUpdate 10 0] []).trace
        = (St.mk dbOneImage [] []).trace ++ evs ∧
      ∀ ev ∈ evs, ∃ iid ord, ev = Ev.imgOrderUpdate iid ord :=
  ⟨by decide,
   C9_no_reupload allOkUpdEnv 1 [10] ⟨dbOneImage, [], []⟩
     ⟨dbOneImage, [Ev.imgOrderUpdate 10 0], []⟩ none (by decide) rfl⟩

/-- C10: an id in the caller's kept list that names no loaded image row
is silently ignored: the kept rows are exactly the matching ids in caller
order (the kept-id list filtered to the ids a loaded row carries), and
the operation proceeds normally — updating product 1 keeping [10, 999]
when only image 10 exists succeeds and leaves image 10 as the sole image
row of the product, at order 0. -/
theorem C10_unmatched_ids_ignored :
    (∀ (ex : List ImageRow) (ids : List Nat),
      (existingImagesToKeep ex ids).map (·.image_id)
        = ids.filter (fun i => ex.any (fun r => r.image_id == i))) ∧
    (updateAction allOkUpdEnv 7 bogusKeepReq dbOneImage).res = .ok 1 [116] ∧
    (imagesOf (updateAction allOkUpdEnv 7 bogusKeepReq dbOneImage).st.db 1).map
      (fun r => (r.image_id, r.image_order)) = [(10, 0)] :=
  ⟨fun ex ids => existingImagesToKeep_map_id ex ids, by decide, by decide⟩

/-- Witness for C10 at a concrete row set: of the kept ids [10, 999] only
10 matches a loaded row. -/
theorem C10_witness :
    (existingImagesToKeep [imageTen] [10, 999]).map (·.image_id)
      = ([10, 999] : List Nat).filter
          (fun i => [imageTen].any (fun r => r.image_id == i)) :=
  C10_unmatched_ids_ignored.1 [imageTen] [10, 999]

end Mostarle
